import Mathlib

/-!
Shallow embedding of the WebGL renderer backend of the three.js study
repository, covering the parts the specification's testable properties
talk about: the render-list builder and its painter sorts
(`WebGLRenderLists`), the program cache (`WebGLPrograms`), the buffer
attribute cache (`WebGLAttributes`), the texture cache (`WebGLTextures`),
the GL state tracker (`WebGLState`), the render-target / viewport slice of
`WebGLRenderer`, and the scene traversal `projectObject`.

Conventions of the embedding: JS numbers that are only compared, subtracted
or tested for sign (ids, render orders, depth values) are embedded as `Int`;
the viewport pipeline, where `Math.round` versus `Math.floor` of a
pixel-ratio product matters, uses `Rat`.  Mutable heaps are explicit state
records, GL side effects are accumulated as explicit call traces, and
reference identity of JS objects is modelled by numeric ids.
-/

namespace Three

/-! ### Render list: materials, render items and the painter sorts
(`WebGLRenderLists.js`, `src/unnamed/part_011`) -/

/-- The material fields read by the render list: `id` (used as a sort key),
`transmission` and `transparent` (used by `push` to pick a bucket) and
`visible`. -/
structure Material where
  id : Int
  transmission : Int
  transparent : Bool
  visible : Bool
  deriving DecidableEq, Repr

/-- A render item as filled in by `getNextRenderItem`: the fields the
painter sort comparators and the bucket classification read.  `id` is
`object.id`, `z` the projected depth. -/
structure RenderItem where
  id : Int
  groupOrder : Int
  renderOrder : Int
  material : Material
  z : Int
  deriving DecidableEq, Repr

/-- The `painterSortStable` comparator: groupOrder, then renderOrder, then
material id, then z ascending, with item id as the final tiebreak.  Only
the sign of the returned difference is used by `Array.prototype.sort`. -/
def painterSortStable (a b : RenderItem) : Int :=
  if a.groupOrder ≠ b.groupOrder then a.groupOrder - b.groupOrder
  else if a.renderOrder ≠ b.renderOrder then a.renderOrder - b.renderOrder
  else if a.material.id ≠ b.material.id then a.material.id - b.material.id
  else if a.z ≠ b.z then a.z - b.z
  else a.id - b.id

/-- The `reversePainterSortStable` comparator: groupOrder, then renderOrder,
then z descending, with item id as the final tiebreak. -/
def reversePainterSortStable (a b : RenderItem) : Int :=
  if a.groupOrder ≠ b.groupOrder then a.groupOrder - b.groupOrder
  else if a.renderOrder ≠ b.renderOrder then a.renderOrder - b.renderOrder
  else if a.z ≠ b.z then b.z - a.z
  else a.id - b.id

/-- `Array.prototype.sort cmp` as specified by ECMAScript: a stable sort in
which an item precedes another whenever the comparator is nonpositive. -/
def jsSort (cmp : RenderItem → RenderItem → Int) (l : List RenderItem) : List RenderItem :=
  l.insertionSort (fun a b => cmp a b ≤ 0)

/-- The three buckets of a `WebGLRenderList`. -/
structure WebGLRenderList where
  opaqueItems : List RenderItem
  transmissiveItems : List RenderItem
  transparentItems : List RenderItem
  deriving DecidableEq, Repr

/-- `init` of `WebGLRenderList`: all three buckets empty. -/
def WebGLRenderList.init : WebGLRenderList := ⟨[], [], []⟩

/-- `push` of `WebGLRenderList`: the item goes to the transmissive bucket
when `material.transmission > 0.0`, else to the transparent bucket when
`material.transparent === true`, else to the opaque bucket. -/
def WebGLRenderList.push (s : WebGLRenderList) (item : RenderItem) : WebGLRenderList :=
  if 0 < item.material.transmission then
    { s with transmissiveItems := s.transmissiveItems ++ [item] }
  else if item.material.transparent = true then
    { s with transparentItems := s.transparentItems ++ [item] }
  else
    { s with opaqueItems := s.opaqueItems ++ [item] }

/-- One bucket of `sort`: `if (list.length > 1) list.sort(cmp)`. -/
def sortBucket (cmp : RenderItem → RenderItem → Int) (l : List RenderItem) : List RenderItem :=
  if 1 < l.length then jsSort cmp l else l

/-- `sort` of `WebGLRenderList` with the default comparators (no custom
sort supplied): opaque by `painterSortStable`, transmissive and transparent
by `reversePainterSortStable`. -/
def WebGLRenderList.sort (s : WebGLRenderList) : WebGLRenderList :=
  { opaqueItems := sortBucket painterSortStable s.opaqueItems
    transmissiveItems := sortBucket reversePainterSortStable s.transmissiveItems
    transparentItems := sortBucket reversePainterSortStable s.transparentItems }

/-- The ordering the spec describes for the opaque bucket: groupOrder
ascending, then renderOrder ascending, then material id ascending, then z
ascending, with item id ascending as the final tiebreak. -/
def opaqueSpecLe (a b : RenderItem) : Prop :=
  a.groupOrder < b.groupOrder ∨ (a.groupOrder = b.groupOrder ∧
    (a.renderOrder < b.renderOrder ∨ (a.renderOrder = b.renderOrder ∧
      (a.material.id < b.material.id ∨ (a.material.id = b.material.id ∧
        (a.z < b.z ∨ (a.z = b.z ∧ a.id ≤ b.id)))))))

/-- The ordering the spec describes for the transparent and transmissive
buckets: groupOrder ascending, then renderOrder ascending, then z
descending, with item id ascending as the final tiebreak. -/
def transparentSpecLe (a b : RenderItem) : Prop :=
  a.groupOrder < b.groupOrder ∨ (a.groupOrder = b.groupOrder ∧
    (a.renderOrder < b.renderOrder ∨ (a.renderOrder = b.renderOrder ∧
      (b.z < a.z ∨ (a.z = b.z ∧ a.id ≤ b.id)))))

/-! ### Program cache (`WebGLPrograms`, `src/unnamed/part_013`)

A cached program is identified by its `progId` (the source's
`programIdCount` counter, standing in for JS reference identity); it
carries its `cacheKey` and `usedTimes`.  `destroyed` records, in order,
the ids whose GL program has been destroyed (`program.destroy()`). -/

/-- The fields of a `WebGLProgram` the cache logic reads: identity, cache
key and reference count.  The `WebGLProgram` constructor initialises
`usedTimes = 1`. -/
structure WebGLProgramRec where
  progId : Nat
  cacheKey : Nat
  usedTimes : Nat
  deriving DecidableEq, Repr

/-- The mutable state of `WebGLPrograms`: the `programs` array, the
`programIdCount` counter of `WebGLProgram`, and the trace of destroyed
program ids. -/
structure ProgramCacheState where
  programs : List WebGLProgramRec
  programIdCount : Nat
  destroyed : List Nat
  deriving DecidableEq, Repr

/-- The initial program cache: no programs compiled yet. -/
def ProgramCacheState.init : ProgramCacheState := ⟨[], 0, []⟩

/-- The linear search loop of `acquireProgram`: find the first program with
the given cache key and increment its `usedTimes` in place; `none` when no
cached program matches. -/
def bumpFirst (cacheKey : Nat) : List WebGLProgramRec → Option (WebGLProgramRec × List WebGLProgramRec)
  | [] => none
  | p :: rest =>
    if p.cacheKey = cacheKey then
      some ({ p with usedTimes := p.usedTimes + 1 }, { p with usedTimes := p.usedTimes + 1 } :: rest)
    else
      match bumpFirst cacheKey rest with
      | some (q, rest') => some (q, p :: rest')
      | none => none

/-- `acquireProgram` of `WebGLPrograms`: on a cache-key hit increment the
hit program's `usedTimes` and return it; on a miss construct a new
`WebGLProgram` (fresh id, `usedTimes = 1`) and push it onto `programs`. -/
def acquireProgram (s : ProgramCacheState) (cacheKey : Nat) : WebGLProgramRec × ProgramCacheState :=
  match bumpFirst cacheKey s.programs with
  | some (p, ps) => (p, { s with programs := ps })
  | none =>
    let p : WebGLProgramRec := ⟨s.programIdCount, cacheKey, 1⟩
    (p, { s with programs := s.programs ++ [p], programIdCount := s.programIdCount + 1 })

/-- The unordered-array removal of `releaseProgram`: `programs[i] =
programs[programs.length - 1]; programs.pop()`. -/
def swapRemove (l : List WebGLProgramRec) (i : Nat) : List WebGLProgramRec :=
  (l.set i (l.getLast?.getD ⟨0, 0, 0⟩)).dropLast

/-- `releaseProgram` of `WebGLPrograms`, taking the program by identity:
decrement `usedTimes`; when it reaches zero, remove the program from the
unordered `programs` array by the swap-with-last idiom and destroy its GL
program.  Releasing an id that is not cached leaves the state unchanged
(the claims only release cached programs). -/
def releaseProgram (s : ProgramCacheState) (pid : Nat) : ProgramCacheState :=
  match s.programs.find? (fun p => p.progId = pid) with
  | none => s
  | some p =>
    if p.usedTimes = 1 then
      { s with
        programs := swapRemove s.programs (s.programs.findIdx (fun q => q.progId = pid))
        destroyed := s.destroyed ++ [pid] }
    else
      { s with programs :=
          s.programs.map (fun q =>
            if q.progId = pid then { q with usedTimes := q.usedTimes - 1 } else q) }

/-- One call into the program cache. -/
inductive ProgOp where
  | acquire (cacheKey : Nat)
  | release (progId : Nat)
  deriving DecidableEq, Repr

/-- Apply one program-cache call (the acquired program itself is dropped;
only the state evolves). -/
def progStep (s : ProgramCacheState) : ProgOp → ProgramCacheState
  | .acquire k => (acquireProgram s k).2
  | .release pid => releaseProgram s pid

/-- The program-cache state after a sequence of calls, starting empty. -/
def runProgOps (ops : List ProgOp) : ProgramCacheState :=
  ops.foldl progStep ProgramCacheState.init

/-- The invariant of the program cache: cache keys are pairwise distinct
(at most one program per key), ids are pairwise distinct and below the id
counter, every cached program has a positive reference count and has not
been destroyed, and no id is destroyed twice. -/
def ProgInv (s : ProgramCacheState) : Prop :=
  (s.programs.map (·.cacheKey)).Nodup ∧
  (s.programs.map (·.progId)).Nodup ∧
  (∀ p ∈ s.programs, p.progId < s.programIdCount ∧ 1 ≤ p.usedTimes ∧ p.progId ∉ s.destroyed) ∧
  s.destroyed.Nodup ∧ (∀ d ∈ s.destroyed, d < s.programIdCount)

/-! ### Buffer attribute cache (`WebGLAttributes.js`) -/

/-- The runtime type of a buffer attribute's typed array, as `createBuffer`
dispatches on it.  `byteLength` of the array is the element count times
`BYTES_PER_ELEMENT` of the kind. -/
inductive ArrayKind where
  | float32 | uint16 | int16 | uint32 | int32 | int8 | uint8 | uint8Clamped
  deriving DecidableEq, Repr

/-- `BYTES_PER_ELEMENT` of each typed-array kind. -/
def ArrayKind.bytesPerElement : ArrayKind → Nat
  | .float32 => 4
  | .uint16 => 2
  | .int16 => 2
  | .uint32 => 4
  | .int32 => 4
  | .int8 => 1
  | .uint8 => 1
  | .uint8Clamped => 1

/-- The GL data type `createBuffer` derives from the array kind (and the
`isFloat16BufferAttribute` flag for `Uint16Array`). -/
inductive GLDataType where
  | float | halfFloat | unsignedShort | short | unsignedInt | int | byte | unsignedByte
  deriving DecidableEq, Repr

/-- The type dispatch of `createBuffer`. -/
def glTypeOf (kind : ArrayKind) (isFloat16 : Bool) : GLDataType :=
  match kind with
  | .float32 => .float
  | .uint16 => if isFloat16 then .halfFloat else .unsignedShort
  | .int16 => .short
  | .uint32 => .unsignedInt
  | .int32 => .int
  | .int8 => .byte
  | .uint8 => .unsignedByte
  | .uint8Clamped => .unsignedByte

/-- An entry of the deprecated single `_updateRange` (fields `offset` and
`count`; `count = -1` means unused). -/
structure LegacyUpdateRange where
  offset : Nat
  count : Int
  deriving DecidableEq, Repr

/-- An entry of `updateRanges` (fields `start` and `count`). -/
structure UpdateRange where
  start : Nat
  count : Nat
  deriving DecidableEq, Repr

/-- A buffer attribute as `WebGLAttributes` reads it.  `arrayData` is the
typed array's contents (one `Int` per element), `version` the dirtiness
counter.  `isGLBufferAttribute` marks the raw-GL-buffer variant, whose
`glBuffer`, `glType` and `elementSize` fields the early branch of `update`
copies verbatim. -/
structure BufferAttribute where
  isGLBufferAttribute : Bool
  glBuffer : Nat
  glType : GLDataType
  elementSize : Nat
  kind : ArrayKind
  isFloat16BufferAttribute : Bool
  arrayData : List Int
  usage : Nat
  version : Nat
  updateRange : LegacyUpdateRange
  updateRanges : List UpdateRange
  deriving DecidableEq, Repr

/-- `array.byteLength` of the attribute's typed array. -/
def BufferAttribute.byteLength (a : BufferAttribute) : Nat :=
  a.arrayData.length * a.kind.bytesPerElement

/-- The record `createBuffer` caches per attribute: GL buffer handle, GL
type, bytes per element, the version copied at upload time, and the byte
size recorded at creation. -/
structure BufferCacheEntry where
  buffer : Nat
  type : GLDataType
  bytesPerElement : Nat
  version : Nat
  size : Nat
  deriving DecidableEq, Repr

/-- The GL calls `WebGLAttributes` issues. -/
inductive AttrGLCall where
  | createBuffer (buffer : Nat)
  | bindBuffer (buffer : Nat)
  | bufferData (buffer : Nat) (data : List Int) (usage : Nat)
  | bufferSubData (buffer : Nat) (dstByteOffset : Nat) (data : List Int)
  | bufferSubDataRange (buffer : Nat) (dstByteOffset : Nat) (start : Nat) (count : Nat)
  | deleteBuffer (buffer : Nat)
  deriving DecidableEq, Repr

/-- Whether a GL call uploads data into a buffer. -/
def AttrGLCall.isUpload : AttrGLCall → Bool
  | .bufferData _ _ _ => true
  | .bufferSubData _ _ _ => true
  | .bufferSubDataRange _ _ _ _ => true
  | _ => false

/-- Whether a GL call allocates a new buffer store. -/
def AttrGLCall.isAllocation : AttrGLCall → Bool
  | .createBuffer _ => true
  | .bufferData _ _ _ => true
  | _ => false

/-- The buffer handle a GL call operates on. -/
def AttrGLCall.target : AttrGLCall → Nat
  | .createBuffer b => b
  | .bindBuffer b => b
  | .bufferData b _ _ => b
  | .bufferSubData b _ _ => b
  | .bufferSubDataRange b _ _ _ => b
  | .deleteBuffer b => b

/-- The cache state for one attribute: the `buffers` weak-map entry for it,
and the supply of fresh GL buffer handles. -/
structure AttributesState where
  cached : Option BufferCacheEntry
  nextBuffer : Nat
  deriving DecidableEq, Repr

/-- The empty attribute cache. -/
def AttributesState.init : AttributesState := ⟨none, 0⟩

/-- `createBuffer` of `WebGLAttributes`: allocate a GL buffer, upload the
whole array with `gl.bufferData`, and cache handle, type, bytes per
element, version and byte size. -/
def createBuffer (s : AttributesState) (a : BufferAttribute) :
    BufferCacheEntry × AttributesState × List AttrGLCall :=
  let h := s.nextBuffer
  (⟨h, glTypeOf a.kind a.isFloat16BufferAttribute, a.kind.bytesPerElement, a.version, a.byteLength⟩,
    { s with nextBuffer := s.nextBuffer + 1 },
    [.createBuffer h, .bindBuffer h, .bufferData h a.arrayData a.usage])

/-- `updateBuffer` of `WebGLAttributes`: bind the existing handle and
re-upload via `gl.bufferSubData` — the whole array when no update range is
pending, else the pending `updateRanges` entries (cleared afterwards) and
the deprecated single `_updateRange` (reset afterwards).  Returns the GL
calls and the attribute with its ranges consumed. -/
def updateBuffer (buffer : Nat) (a : BufferAttribute) : BufferAttribute × List AttrGLCall :=
  let bpe := a.kind.bytesPerElement
  let fullCalls : List AttrGLCall :=
    if a.updateRange.count = -1 ∧ a.updateRanges = [] then
      [.bufferSubData buffer 0 a.arrayData]
    else []
  let rangeCalls : List AttrGLCall :=
    a.updateRanges.map (fun r => .bufferSubDataRange buffer (r.start * bpe) r.start r.count)
  let legacyCalls : List AttrGLCall :=
    if a.updateRange.count ≠ -1 then
      [.bufferSubDataRange buffer (a.updateRange.offset * bpe) a.updateRange.offset
        a.updateRange.count.toNat]
    else []
  ({ a with updateRanges := [], updateRange := { a.updateRange with count := -1 } },
    .bindBuffer buffer :: (fullCalls ++ rangeCalls ++ legacyCalls))

/-- The outcome of one `update` call: new cache state, the attribute (its
update ranges may have been consumed), the GL calls issued, and the thrown
error message, if any (on a throw the cache state is returned unchanged,
matching the exception leaving the weak map untouched). -/
structure UpdateResult where
  state : AttributesState
  attr : BufferAttribute
  calls : List AttrGLCall
  error : Option String
  deriving DecidableEq, Repr

/-- `update` of `WebGLAttributes`.  A `GLBufferAttribute` refreshes the
cached record from the attribute's own fields (no GL call; that record
stores no byte size, embedded here as size 0).  Otherwise: no cache entry
yet → `createBuffer`; cached version older than the attribute's → throw
when the byte size changed, else `updateBuffer` into the existing handle
and store the new version; cached version current → do nothing. -/
def update (s : AttributesState) (a : BufferAttribute) : UpdateResult :=
  if a.isGLBufferAttribute then
    match s.cached with
    | none => ⟨{ s with cached := some ⟨a.glBuffer, a.glType, a.elementSize, a.version, 0⟩ }, a, [], none⟩
    | some cached =>
      if cached.version < a.version then
        ⟨{ s with cached := some ⟨a.glBuffer, a.glType, a.elementSize, a.version, 0⟩ }, a, [], none⟩
      else ⟨s, a, [], none⟩
  else
    match s.cached with
    | none =>
      let (entry, s', calls) := createBuffer s a
      ⟨{ s' with cached := some entry }, a, calls, none⟩
    | some data =>
      if data.version < a.version then
        if data.size ≠ a.byteLength then
          ⟨s, a, [], some "THREE.WebGLAttributes: The size of the buffer attribute's array buffer does not match the original size. Resizing buffer attributes is not supported."⟩
        else
          let (a', calls) := updateBuffer data.buffer a
          ⟨{ s with cached := some { data with version := a.version } }, a', calls, none⟩
      else ⟨s, a, [], none⟩

/-- Iterate `update` with the evolving attribute, collecting all calls. -/
def updateIter (s : AttributesState) (a : BufferAttribute) : Nat → AttributesState × BufferAttribute × List AttrGLCall
  | 0 => (s, a, [])
  | n + 1 =>
    let r := update s a
    let (s', a', calls) := updateIter r.state r.attr n
    (s', a', r.calls ++ calls)

/-! ### Texture cache (`WebGLTextures.js`) -/

/-- Association-list lookup by key (first match), for the JS object maps
and `WeakMap`s of the caches. -/
def assocLookup {K V : Type} [DecidableEq K] (l : List (K × V)) (k : K) : Option V :=
  (l.find? (fun e => e.1 = k)).map (·.2)

/-- Set a key's value in an association list: replace the first binding, or
append a new one. -/
def assocSet {K V : Type} [DecidableEq K] (l : List (K × V)) (k : K) (v : V) : List (K × V) :=
  match l with
  | [] => [(k, v)]
  | e :: rest => if e.1 = k then (k, v) :: rest else e :: assocSet rest k v

/-- Remove a key's first binding from an association list. -/
def assocErase {K V : Type} [DecidableEq K] (l : List (K × V)) (k : K) : List (K × V) :=
  match l with
  | [] => []
  | e :: rest => if e.1 = k then rest else e :: assocErase rest k

/-- The texture sampling/format parameters `getTextureCacheKey` reads.
`wrapR` may be undefined (the source substitutes 0). -/
structure TextureParams where
  wrapS : Nat
  wrapT : Nat
  wrapR : Option Nat
  magFilter : Nat
  minFilter : Nat
  anisotropy : Nat
  internalFormat : Nat
  format : Nat
  type : Nat
  generateMipmaps : Bool
  premultiplyAlpha : Bool
  flipY : Bool
  unpackAlignment : Nat
  colorSpace : Nat
  deriving DecidableEq, Repr

/-- A logical texture: its identity, its shared `source`'s identity, and
its current parameters. -/
structure Texture where
  id : Nat
  source : Nat
  params : TextureParams
  deriving DecidableEq, Repr

/-- `getTextureCacheKey`: the parameter tuple, serialised in source order
(`array.join()` is embedded as the list itself; booleans as 0/1, the
possibly undefined `wrapR` as `wrapR || 0`). -/
def getTextureCacheKey (t : TextureParams) : List Nat :=
  [t.wrapS, t.wrapT, t.wrapR.getD 0, t.magFilter, t.minFilter, t.anisotropy,
   t.internalFormat, t.format, t.type, cond t.generateMipmaps 1 0,
   cond t.premultiplyAlpha 1 0, cond t.flipY 1 0, t.unpackAlignment, t.colorSpace]

/-- One entry of the per-source `webglTextures` map: a GL texture handle
and its reference count. -/
structure WebGLTextureRec where
  texture : Nat
  usedTimes : Nat
  deriving DecidableEq, Repr

/-- The backend-private properties of one logical texture:
`__cacheKey` and `__webglTexture`. -/
structure TexProps where
  cacheKey : Option (List Nat)
  webglTexture : Option Nat
  deriving DecidableEq, Repr

/-- The texture cache state: the `_sources` map (source id → cache-key →
handle record), the properties store for textures, the supply of fresh GL
texture handles, the trace of `gl.deleteTexture` calls, and
`info.memory.textures`. -/
structure TexturesState where
  sources : List (Nat × List (List Nat × WebGLTextureRec))
  props : List (Nat × TexProps)
  nextTexture : Nat
  deletedTextures : List Nat
  memoryTextures : Int
  deriving DecidableEq, Repr

/-- The empty texture cache. -/
def TexturesState.init : TexturesState := ⟨[], [], 0, [], 0⟩

/-- `initTexture` of `WebGLTextures` (the `deleteTexture` helper inlined at
its call site): ensure the per-source `webglTextures` map exists; when the
texture's cache key changed, create a handle record for the new key if
none exists (forcing an upload), increment the new record's `usedTimes`,
decrement the old key's record and — when its count thereby reaches zero —
delete the old GL handle and drop the old record, then point the texture's
properties at the new key and handle.  Returns `forceUpload`. -/
def initTexture (st : TexturesState) (t : Texture) : Bool × TexturesState :=
  let props := (assocLookup st.props t.id).getD ⟨none, none⟩
  let wt := (assocLookup st.sources t.source).getD []
  let key := getTextureCacheKey t.params
  if props.cacheKey = some key then
    (false, { st with sources := assocSet st.sources t.source wt })
  else
    let isNew := (assocLookup wt key).isNone
    let st1 :=
      if isNew then
        { st with nextTexture := st.nextTexture + 1, memoryTextures := st.memoryTextures + 1 }
      else st
    let wt1 := if isNew then assocSet wt key ⟨st.nextTexture, 0⟩ else wt
    let wt2 :=
      match assocLookup wt1 key with
      | some r => assocSet wt1 key { r with usedTimes := r.usedTimes + 1 }
      | none => wt1
    let (wt3, st2) :=
      match props.cacheKey with
      | none => (wt2, st1)
      | some oldKey =>
        match assocLookup wt2 oldKey with
        | none => (wt2, st1)
        | some oldRec =>
          if oldRec.usedTimes - 1 = 0 then
            (assocErase wt2 oldKey,
             { st1 with
                deletedTextures := st1.deletedTextures ++ [props.webglTexture.getD 0]
                memoryTextures := st1.memoryTextures - 1 })
          else
            (assocSet wt2 oldKey { oldRec with usedTimes := oldRec.usedTimes - 1 }, st1)
    let newHandle := ((assocLookup wt2 key).getD ⟨0, 0⟩).texture
    (isNew,
      { st2 with
          sources := assocSet st2.sources t.source wt3
          props := assocSet st2.props t.id ⟨some key, some newHandle⟩ })

/-- A sequence of `initTexture` calls: each op names a texture id and its
current parameters; `src` fixes each texture id's (immutable) source. -/
def runInitTextures (src : Nat → Nat) (ops : List (Nat × TextureParams)) : TexturesState :=
  ops.foldl (fun st op => (initTexture st ⟨op.1, src op.1, op.2⟩).2) TexturesState.init

/-- The number of logical textures of source `srcId` whose properties
currently point at cache key `key`: the reference count a `usedTimes`
field is meant to mirror. -/
def refCount (src : Nat → Nat) (st : TexturesState) (srcId : Nat) (key : List Nat) : Nat :=
  st.props.countP (fun e => src e.1 = srcId ∧ e.2.cacheKey = some key)

/-- The texture-cache invariant: source ids, per-source cache keys and
texture ids are unique; every live handle record's `usedTimes` is positive
and equals the number of logical textures referencing its key; and every
texture's properties point at a live record of its own source whose handle
they mirror. -/
def TexInv (src : Nat → Nat) (st : TexturesState) : Prop :=
  (st.sources.map Prod.fst).Nodup ∧
  (st.props.map Prod.fst).Nodup ∧
  (∀ e ∈ st.sources, (e.2.map Prod.fst).Nodup) ∧
  (∀ e ∈ st.sources, ∀ en ∈ e.2, 1 ≤ en.2.usedTimes ∧
    en.2.usedTimes = refCount src st e.1 en.1) ∧
  (∀ pe ∈ st.props, ∀ key, pe.2.cacheKey = some key →
    ∃ wt, assocLookup st.sources (src pe.1) = some wt ∧
      ∃ rec, assocLookup wt key = some rec ∧ pe.2.webglTexture = some rec.texture)

/-- A concrete source assignment: every texture id belongs to source 0. -/
def texSrc0 : Nat → Nat := fun _ => 0

/-- Concrete texture parameters. -/
def texParamsA : TextureParams := ⟨1, 1, none, 1, 1, 1, 1, 1, 1, false, false, false, 1, 1⟩

/-- The same parameters with a different magnification filter, hence a
different cache key. -/
def texParamsB : TextureParams := { texParamsA with magFilter := 2 }

/-- A demo cache state: textures 1 and 2 of the shared source 0 are
initialised with identical parameters, so both reference one handle
record (`usedTimes = 2`). -/
def texDemoState : TexturesState := runInitTextures texSrc0 [(1, texParamsA), (2, texParamsA)]

/-! ### GL state tracker (`WebGLState.js`)

The numeric values of the three.js constants live in the excluded
`constants.js`, so blending modes, equations, factors, cull modes and depth
modes are embedded as enumerated types.  GL calls in the trace carry the
three.js-level arguments; the `equationToGL` / `factorToGL` / `cullFace` /
`depthFunc` translation tables are injective renamings into GL enums and
are left out of the embedding. -/

/-- GL capabilities passed to `enable` / `disable`. -/
inductive GLCap where
  | blend | cullFaceCap | depthTest | stencilTest | scissorTest
  | polygonOffsetFill | sampleAlphaToCoverage
  deriving DecidableEq, Repr

/-- The three framebuffer binding targets. -/
inductive FBTarget where
  | framebuffer | drawFramebuffer | readFramebuffer
  deriving DecidableEq, Repr

/-- The three.js blending modes. -/
inductive Blending where
  | noBlending | normalBlending | additiveBlending | subtractiveBlending
  | multiplyBlending | customBlending
  deriving DecidableEq, Repr

/-- The three.js blend equations. -/
inductive BlendEq where
  | addEquation | subtractEquation | reverseSubtractEquation | minEquation | maxEquation
  deriving DecidableEq, Repr

/-- The three.js blend factors. -/
inductive BlendFactor where
  | zero | one | srcColor | oneMinusSrcColor | srcAlpha | oneMinusSrcAlpha
  | dstAlpha | oneMinusDstAlpha | dstColor | oneMinusDstColor | srcAlphaSaturate
  | constantColor | oneMinusConstantColor | constantAlpha | oneMinusConstantAlpha
  deriving DecidableEq, Repr

/-- The three.js cull-face modes. -/
inductive CullFaceMode where
  | cullFaceNone | cullFaceBack | cullFaceFront | cullFaceFrontBack
  deriving DecidableEq, Repr

/-- The three.js depth comparison modes. -/
inductive DepthMode where
  | neverDepth | alwaysDepth | lessDepth | lessEqualDepth | equalDepth
  | greaterEqualDepth | greaterDepth | notEqualDepth
  deriving DecidableEq, Repr

/-- A blend color (`Color`), with channels embedded as `Int`. -/
structure BlendColor where
  r : Int
  g : Int
  b : Int
  deriving DecidableEq, Repr

/-- The GL calls the state tracker issues. -/
inductive GLCall where
  | enable (cap : GLCap)
  | disable (cap : GLCap)
  | useProgram (program : Nat)
  | bindFramebuffer (target : FBTarget) (framebuffer : Option Nat)
  | cullFace (mode : CullFaceMode)
  | frontFace (cw : Bool)
  | depthFunc (mode : DepthMode)
  | depthMask (flag : Bool)
  | stencilFunc (func ref mask : Nat)
  | stencilOp (fail zfail zpass : Nat)
  | stencilMask (mask : Nat)
  | blendEquation (eq : BlendEq)
  | blendEquationSeparate (eq eqAlpha : BlendEq)
  | blendFunc (src dst : BlendFactor)
  | blendFuncSeparate (src dst srcAlpha dstAlpha : BlendFactor)
  | blendColor (color : BlendColor) (alpha : Int)
  deriving DecidableEq, Repr

/-- The mirrored snapshot of `WebGLState`: every `current*` variable the
modelled setters read or write.  JS `null`/`undefined` initial values are
`none`; the capability and framebuffer maps are JS objects, embedded as
association lists. -/
structure GLStateTracker where
  enabledCapabilities : List (GLCap × Bool)
  currentBoundFramebuffers : List (FBTarget × Option Nat)
  currentProgram : Option Nat
  currentBlendingEnabled : Bool
  currentBlending : Option Blending
  currentBlendEquation : Option BlendEq
  currentBlendSrc : Option BlendFactor
  currentBlendDst : Option BlendFactor
  currentBlendEquationAlpha : Option BlendEq
  currentBlendSrcAlpha : Option BlendFactor
  currentBlendDstAlpha : Option BlendFactor
  currentBlendColor : BlendColor
  currentBlendAlpha : Int
  currentPremultipledAlpha : Bool
  currentFlipSided : Option Bool
  currentCullFace : Option CullFaceMode
  depthLocked : Bool
  currentDepthMask : Option Bool
  currentDepthFunc : Option DepthMode
  stencilLocked : Bool
  currentStencilMask : Option Nat
  currentStencilFunc : Option Nat
  currentStencilRef : Option Nat
  currentStencilFuncMask : Option Nat
  currentStencilFail : Option Nat
  currentStencilZFail : Option Nat
  currentStencilZPass : Option Nat
  deriving DecidableEq, Repr

/-- The snapshot before the `WebGLState` constructor body runs: every
`current*` variable `null`, no capability recorded, no lock held. -/
def GLStateTracker.raw : GLStateTracker :=
  ⟨[], [], none, false, none, none, none, none, none, none, none,
   ⟨0, 0, 0⟩, 0, false, none, none, false, none, none, false,
   none, none, none, none, none, none, none⟩

/-- `enable`: issue `gl.enable` only when the capability is not already
recorded as enabled. -/
def GLStateTracker.enable (s : GLStateTracker) (id : GLCap) : GLStateTracker × List GLCall :=
  if assocLookup s.enabledCapabilities id ≠ some true then
    ({ s with enabledCapabilities := assocSet s.enabledCapabilities id true }, [.enable id])
  else (s, [])

/-- `disable`: issue `gl.disable` only when the capability is not already
recorded as disabled. -/
def GLStateTracker.disable (s : GLStateTracker) (id : GLCap) : GLStateTracker × List GLCall :=
  if assocLookup s.enabledCapabilities id ≠ some false then
    ({ s with enabledCapabilities := assocSet s.enabledCapabilities id false }, [.disable id])
  else (s, [])

/-- `useProgram`: bind only when the program differs from the snapshot;
returns whether a real `gl.useProgram` was issued. -/
def GLStateTracker.useProgram (s : GLStateTracker) (program : Nat) :
    Bool × GLStateTracker × List GLCall :=
  if s.currentProgram ≠ some program then
    (true, { s with currentProgram := some program }, [.useProgram program])
  else (false, s, [])

/-- `bindFramebuffer`: bind only when the framebuffer differs from the
snapshot entry of the target; `gl.DRAW_FRAMEBUFFER` and `gl.FRAMEBUFFER`
are kept aliased (binding either updates both snapshot entries); returns
whether a real `gl.bindFramebuffer` was issued. -/
def GLStateTracker.bindFramebuffer (s : GLStateTracker) (target : FBTarget)
    (framebuffer : Option Nat) : Bool × GLStateTracker × List GLCall :=
  if assocLookup s.currentBoundFramebuffers target ≠ some framebuffer then
    let m := assocSet s.currentBoundFramebuffers target framebuffer
    let m :=
      if target = .drawFramebuffer then assocSet m .framebuffer framebuffer else m
    let m :=
      if target = .framebuffer then assocSet m .drawFramebuffer framebuffer else m
    (true, { s with currentBoundFramebuffers := m }, [.bindFramebuffer target framebuffer])
  else (false, s, [])

/-- `setFlipSided`: set the front-face winding only on change. -/
def setFlipSided (s : GLStateTracker) (flipSided : Bool) : GLStateTracker × List GLCall :=
  if s.currentFlipSided ≠ some flipSided then
    ({ s with currentFlipSided := some flipSided }, [.frontFace flipSided])
  else (s, [])

/-- `setCullFace`: a non-`CullFaceNone` mode enables the capability and
issues `gl.cullFace` only when the mode changed; `CullFaceNone` disables
the capability; the snapshot mode is updated unconditionally. -/
def setCullFace (s : GLStateTracker) (cullFace : CullFaceMode) : GLStateTracker × List GLCall :=
  if cullFace ≠ .cullFaceNone then
    let (s1, calls1) := s.enable .cullFaceCap
    let calls2 : List GLCall :=
      if s1.currentCullFace ≠ some cullFace then [.cullFace cullFace] else []
    ({ s1 with currentCullFace := some cullFace }, calls1 ++ calls2)
  else
    let (s1, calls1) := s.disable .cullFaceCap
    ({ s1 with currentCullFace := some cullFace }, calls1)

/-- `depthBuffer.setFunc`: issue `gl.depthFunc` only on change (every arm
of the source's switch issues exactly one call). -/
def depthSetFunc (s : GLStateTracker) (depthFunc : DepthMode) : GLStateTracker × List GLCall :=
  if s.currentDepthFunc ≠ some depthFunc then
    ({ s with currentDepthFunc := some depthFunc }, [.depthFunc depthFunc])
  else (s, [])

/-- `depthBuffer.setMask`: issue `gl.depthMask` only on change and only
when the depth buffer is not locked. -/
def depthSetMask (s : GLStateTracker) (depthMask : Bool) : GLStateTracker × List GLCall :=
  if s.currentDepthMask ≠ some depthMask ∧ ¬s.depthLocked then
    ({ s with currentDepthMask := some depthMask }, [.depthMask depthMask])
  else (s, [])

/-- `stencilBuffer.setFunc`: issue `gl.stencilFunc` only when the function,
reference or mask changed. -/
def stencilSetFunc (s : GLStateTracker) (stencilFunc stencilRef stencilMask : Nat) :
    GLStateTracker × List GLCall :=
  if s.currentStencilFunc ≠ some stencilFunc ∨ s.currentStencilRef ≠ some stencilRef ∨
      s.currentStencilFuncMask ≠ some stencilMask then
    ({ s with
        currentStencilFunc := some stencilFunc
        currentStencilRef := some stencilRef
        currentStencilFuncMask := some stencilMask },
      [.stencilFunc stencilFunc stencilRef stencilMask])
  else (s, [])

/-- `stencilBuffer.setOp`: issue `gl.stencilOp` only when one of the three
operations changed. -/
def stencilSetOp (s : GLStateTracker) (stencilFail stencilZFail stencilZPass : Nat) :
    GLStateTracker × List GLCall :=
  if s.currentStencilFail ≠ some stencilFail ∨ s.currentStencilZFail ≠ some stencilZFail ∨
      s.currentStencilZPass ≠ some stencilZPass then
    ({ s with
        currentStencilFail := some stencilFail
        currentStencilZFail := some stencilZFail
        currentStencilZPass := some stencilZPass },
      [.stencilOp stencilFail stencilZFail stencilZPass])
  else (s, [])

/-- `stencilBuffer.setMask`: issue `gl.stencilMask` only on change and only
when the stencil buffer is not locked. -/
def stencilSetMask (s : GLStateTracker) (stencilMask : Nat) : GLStateTracker × List GLCall :=
  if s.currentStencilMask ≠ some stencilMask ∧ ¬s.stencilLocked then
    ({ s with currentStencilMask := some stencilMask }, [.stencilMask stencilMask])
  else (s, [])

/-- The `gl.blendFuncSeparate` / `gl.blendFunc` call of the non-custom
switch of `setBlending`, by blending mode and premultiplied flag (the
factors are the three.js names of the GL constants the source passes).
`none` for the `console.error` default arm. -/
def builtinBlendCall (blending : Blending) (premultipliedAlpha : Bool) : Option GLCall :=
  if premultipliedAlpha then
    match blending with
    | .normalBlending => some (.blendFuncSeparate .one .oneMinusSrcAlpha .one .oneMinusSrcAlpha)
    | .additiveBlending => some (.blendFunc .one .one)
    | .subtractiveBlending => some (.blendFuncSeparate .zero .oneMinusSrcColor .zero .one)
    | .multiplyBlending => some (.blendFuncSeparate .zero .srcColor .zero .srcAlpha)
    | _ => none
  else
    match blending with
    | .normalBlending => some (.blendFuncSeparate .srcAlpha .oneMinusSrcAlpha .one .oneMinusSrcAlpha)
    | .additiveBlending => some (.blendFunc .srcAlpha .one)
    | .subtractiveBlending => some (.blendFuncSeparate .zero .oneMinusSrcColor .zero .one)
    | .multiplyBlending => some (.blendFunc .zero .srcColor)
    | _ => none

/-- `setBlending`.  `NoBlending` only disables the BLEND capability (the
snapshot of the blend parameters is left as it was).  Other modes enable
the capability; a non-custom mode re-issues the fixed equation/function
pair only when the mode or the premultiplied flag changed (resetting the
custom-factor snapshot to `null`); `CustomBlending` diffs equations,
factors and blend color individually.  The alpha variants of equation and
factors may be `undefined` (`none`), in which case the source's `||`
falls back to the color variant. -/
def setBlending (s : GLStateTracker) (blending : Blending)
    (blendEquation : BlendEq) (blendSrc blendDst : BlendFactor)
    (blendEquationAlpha : Option BlendEq) (blendSrcAlpha blendDstAlpha : Option BlendFactor)
    (blendColor : BlendColor) (blendAlpha : Int)
    (premultipliedAlpha : Bool) : GLStateTracker × List GLCall :=
  if blending = .noBlending then
    if s.currentBlendingEnabled = true then
      let (s1, calls1) := s.disable .blend
      ({ s1 with currentBlendingEnabled := false }, calls1)
    else (s, [])
  else
    let (s1, calls1) :=
      if s.currentBlendingEnabled = false then
        let (s1, calls1) := s.enable .blend
        ({ s1 with currentBlendingEnabled := true }, calls1)
      else (s, [])
    if blending ≠ .customBlending then
      if some blending ≠ s1.currentBlending ∨ premultipliedAlpha ≠ s1.currentPremultipledAlpha then
        let (s2, calls2) :=
          if s1.currentBlendEquation ≠ some .addEquation ∨
              s1.currentBlendEquationAlpha ≠ some .addEquation then
            ({ s1 with
                currentBlendEquation := some .addEquation
                currentBlendEquationAlpha := some .addEquation },
              [GLCall.blendEquation .addEquation])
          else (s1, [])
        let calls3 := (builtinBlendCall blending premultipliedAlpha).toList
        ({ s2 with
            currentBlendSrc := none
            currentBlendDst := none
            currentBlendSrcAlpha := none
            currentBlendDstAlpha := none
            currentBlendColor := ⟨0, 0, 0⟩
            currentBlendAlpha := 0
            currentBlending := some blending
            currentPremultipledAlpha := premultipliedAlpha },
          calls1 ++ calls2 ++ calls3)
      else (s1, calls1)
    else
      let blendEquationAlpha' := blendEquationAlpha.getD blendEquation
      let blendSrcAlpha' := blendSrcAlpha.getD blendSrc
      let blendDstAlpha' := blendDstAlpha.getD blendDst
      let (s2, calls2) :=
        if some blendEquation ≠ s1.currentBlendEquation ∨
            some blendEquationAlpha' ≠ s1.currentBlendEquationAlpha then
          ({ s1 with
              currentBlendEquation := some blendEquation
              currentBlendEquationAlpha := some blendEquationAlpha' },
            [.blendEquationSeparate blendEquation blendEquationAlpha'])
        else (s1, [])
      let (s3, calls3) :=
        if some blendSrc ≠ s2.currentBlendSrc ∨ some blendDst ≠ s2.currentBlendDst ∨
            some blendSrcAlpha' ≠ s2.currentBlendSrcAlpha ∨
            some blendDstAlpha' ≠ s2.currentBlendDstAlpha then
          ({ s2 with
              currentBlendSrc := some blendSrc
              currentBlendDst := some blendDst
              currentBlendSrcAlpha := some blendSrcAlpha'
              currentBlendDstAlpha := some blendDstAlpha' },
            [.blendFuncSeparate blendSrc blendDst blendSrcAlpha' blendDstAlpha'])
        else (s2, [])
      let (s4, calls4) :=
        if blendColor ≠ s3.currentBlendColor ∨ blendAlpha ≠ s3.currentBlendAlpha then
          ({ s3 with currentBlendColor := blendColor, currentBlendAlpha := blendAlpha },
            [.blendColor blendColor blendAlpha])
        else (s3, [])
      ({ s4 with currentBlending := some blending, currentPremultipledAlpha := false },
        calls1 ++ calls2 ++ calls3 ++ calls4)

/-- The snapshot after the `WebGLState` constructor body: depth test
enabled with `LessEqualDepth`, counter-clockwise front faces, back-face
culling enabled, blending off (the constructor's clear-value calls touch
only clear state, which is not part of this snapshot).  The constructor's
`setBlending(NoBlending)` call returns in its first branch without reading
the remaining (undefined) arguments; they are passed here as arbitrary
placeholders. -/
def GLStateTracker.initial : GLStateTracker :=
  let s := GLStateTracker.raw
  let s := (s.enable .depthTest).1
  let s := (depthSetFunc s .lessEqualDepth).1
  let s := (setFlipSided s false).1
  let s := (setCullFace s .cullFaceBack).1
  let s := (s.enable .cullFaceCap).1
  (setBlending s .noBlending .addEquation .zero .zero none none none ⟨0, 0, 0⟩ 0 false).1

/-! ### Renderer viewport / render-target slice (`src/unnamed/part_008`)

The viewport pipeline needs real arithmetic: `setViewport` stores
`round(_viewport * _pixelRatio)` into the active viewport while
`setRenderTarget(null)` recomputes `floor(_viewport * _pixelRatio)`, so
coordinates are embedded as rationals.  `Math.round x` is
`⌊x + 1/2⌋`, `Math.floor` is `Rat.floor`. -/

/-- A `Vector4` over the rationals. -/
structure Vector4Q where
  x : Rat
  y : Rat
  z : Rat
  w : Rat
  deriving DecidableEq, Repr

/-- `Vector4.multiplyScalar`. -/
def Vector4Q.multiplyScalar (v : Vector4Q) (s : Rat) : Vector4Q :=
  ⟨v.x * s, v.y * s, v.z * s, v.w * s⟩

/-- JS `Math.round`: round half toward positive infinity. -/
def jsRound (q : Rat) : Int := ⌊q + 1 / 2⌋

/-- `Vector4.round`: `Math.round` on each component. -/
def Vector4Q.round (v : Vector4Q) : Vector4Q :=
  ⟨(jsRound v.x : Int), (jsRound v.y : Int), (jsRound v.z : Int), (jsRound v.w : Int)⟩

/-- `Vector4.floor`: `Math.floor` on each component. -/
def Vector4Q.floorV (v : Vector4Q) : Vector4Q :=
  ⟨(⌊v.x⌋ : Int), (⌊v.y⌋ : Int), (⌊v.z⌋ : Int), (⌊v.w⌋ : Int)⟩

/-- The fields of a render target `setRenderTarget` reads for the viewport
slice: identity, its own viewport/scissor rectangles and scissor-test
flag, and the framebuffer resolved for it. -/
structure RenderTarget where
  id : Nat
  viewport : Vector4Q
  scissor : Vector4Q
  scissorTest : Bool
  framebuffer : Option Nat
  deriving DecidableEq, Repr

/-- The renderer state the viewport/scissor scenario touches: the
logical `_viewport` / `_scissor` / `_scissorTest` / `_pixelRatio`
configuration, the `_current*` values, the current render target, and the
GL-side snapshots held by `WebGLState` (`currentViewport`,
`currentScissor`, the SCISSOR_TEST capability, and the FRAMEBUFFER
binding). -/
structure RendererViewportState where
  viewportV : Vector4Q
  scissorV : Vector4Q
  scissorTest : Bool
  pixelRatio : Rat
  currentViewport : Vector4Q
  currentScissor : Vector4Q
  currentScissorTest : Bool
  currentRenderTarget : Option Nat
  stateViewport : Vector4Q
  stateScissor : Vector4Q
  stateScissorTest : Option Bool
  boundFramebuffer : Option (Option Nat)
  deriving DecidableEq, Repr

/-- `state.viewport`: update the GL viewport only on change (the value
comparison does not matter for the claims; the snapshot always ends up at
the requested value). -/
def stateViewportSet (s : RendererViewportState) (v : Vector4Q) : RendererViewportState :=
  { s with stateViewport := v }

/-- `state.scissor`. -/
def stateScissorSet (s : RendererViewportState) (v : Vector4Q) : RendererViewportState :=
  { s with stateScissor := v }

/-- `state.setScissorTest`: enable or disable the SCISSOR_TEST
capability. -/
def stateSetScissorTest (s : RendererViewportState) (b : Bool) : RendererViewportState :=
  { s with stateScissorTest := some b }

/-- `WebGLRenderer.setViewport` (vector-free overload): store the logical
viewport and push `round(_viewport * _pixelRatio)` into the active
viewport. -/
def setViewport (s : RendererViewportState) (x y width height : Rat) : RendererViewportState :=
  let s := { s with viewportV := ⟨x, y, width, height⟩ }
  let cur := (s.viewportV.multiplyScalar s.pixelRatio).round
  stateViewportSet { s with currentViewport := cur } cur

/-- `WebGLRenderer.setScissor` (vector-free overload). -/
def setScissor (s : RendererViewportState) (x y width height : Rat) : RendererViewportState :=
  let s := { s with scissorV := ⟨x, y, width, height⟩ }
  let cur := (s.scissorV.multiplyScalar s.pixelRatio).round
  stateScissorSet { s with currentScissor := cur } cur

/-- `WebGLRenderer.setScissorTest`. -/
def setScissorTest (s : RendererViewportState) (b : Bool) : RendererViewportState :=
  stateSetScissorTest { s with scissorTest := b } b

/-- `WebGLRenderer.setRenderTarget`, restricted to the state this slice
models: with a target, adopt the target's viewport/scissor/scissor-test
and bind its framebuffer; with `null`, recompute the active values from
the logical configuration using `floor(_viewport * _pixelRatio)` and bind
the default framebuffer (`null`).  Either way the computed values are
pushed into the GL-side snapshots. -/
def setRenderTarget (s : RendererViewportState) (renderTarget : Option RenderTarget) :
    RendererViewportState :=
  let s :=
    match renderTarget with
    | some t =>
      { s with
          currentRenderTarget := some t.id
          currentViewport := t.viewport
          currentScissor := t.scissor
          currentScissorTest := t.scissorTest }
    | none =>
      { s with
          currentRenderTarget := none
          currentViewport := (s.viewportV.multiplyScalar s.pixelRatio).floorV
          currentScissor := (s.scissorV.multiplyScalar s.pixelRatio).floorV
          currentScissorTest := s.scissorTest }
  let fb : Option Nat := match renderTarget with | some t => t.framebuffer | none => none
  let s := { s with boundFramebuffer := some fb }
  stateSetScissorTest (stateScissorSet (stateViewportSet s s.currentViewport) s.currentScissor)
    s.currentScissorTest

/-- A viewport/scissor configuration established through the renderer API:
`setViewport`, then `setScissor`, then `setScissorTest`. -/
def applyViewportConfig (s : RendererViewportState) (x y width height sx sy sw sh : Rat)
    (st : Bool) : RendererViewportState :=
  setScissorTest (setScissor (setViewport s x y width height) sx sy sw sh) st

/-- A renderer viewport state with pixel ratio 3/2 and everything else at
the defaults, used as a concrete test fixture. -/
def demoViewportState : RendererViewportState :=
  ⟨⟨0, 0, 0, 0⟩, ⟨0, 0, 0, 0⟩, false, 3 / 2, ⟨0, 0, 0, 0⟩, ⟨0, 0, 0, 0⟩, false, none,
    ⟨0, 0, 0, 0⟩, ⟨0, 0, 0, 0⟩, none, none⟩

/-- The same fixture with pixel ratio 1. -/
def demoViewportState1 : RendererViewportState :=
  ⟨⟨0, 0, 0, 0⟩, ⟨0, 0, 0, 0⟩, false, 1, ⟨0, 0, 0, 0⟩, ⟨0, 0, 0, 0⟩, false, none,
    ⟨0, 0, 0, 0⟩, ⟨0, 0, 0, 0⟩, none, none⟩

/-- A concrete render target fixture. -/
def demoTarget : RenderTarget := ⟨1, ⟨0, 0, 4, 4⟩, ⟨0, 0, 4, 4⟩, false, some 7⟩

/-! ### Scene traversal `projectObject` (`src/unnamed/part_008`)

Modelled for the drawable kinds the traversal claims concern: groups,
lights, single-material meshes/lines/points (sprites and multi-material
groups follow the same visibility and layer logic).  Depth sorting
(`sortObjects`) is off, as the claims here do not involve `z`. -/

/-- What an object node is, with the per-kind fields `projectObject`
reads. -/
inductive ObjKind where
  | group (renderOrder : Int)
  | light (castShadow : Bool)
  | mesh (geometryId : Nat) (material : Material) (frustumCulled : Bool) (inFrustum : Bool)
  | plain
  deriving DecidableEq, Repr

/-- A scene-graph node: `visible` flag, layer mask, kind, children. -/
inductive Object3D where
  | node (id : Int) (visible : Bool) (layersMask : Nat) (kind : ObjKind)
      (children : List Object3D)

/-- What one traversal contributes: render items pushed to the current
render list, and lights (plus shadow-casting lights) pushed to the render
state. -/
inductive Contribution where
  | renderItem (objectId : Int) (geometryId : Nat) (materialId : Int) (groupOrder : Int)
  | lightPushed (objectId : Int)
  | shadowPushed (objectId : Int)
  deriving DecidableEq, Repr

/-- `Layers.test`: the bitwise AND of the masks is nonzero. -/
def layersTest (objMask camMask : Nat) : Bool := Nat.land objMask camMask ≠ 0

/-- `projectObject`: an invisible object returns immediately (its subtree
is never traversed); a visible object contributes only when it passes the
camera's layer test (a group updating the inherited `groupOrder`, a light
pushed along with a shadow entry when it casts shadows, a drawable pushed
when not frustum-culled and its material is visible); children are always
traversed with the (possibly updated) `groupOrder`. -/
def projectObject (camMask : Nat) (groupOrder : Int) : Object3D → List Contribution
  | .node id visible layersMask kind children =>
    if visible = false then []
    else
      let lv := layersTest layersMask camMask
      let go : Int :=
        if lv then (match kind with | .group ro => ro | _ => groupOrder)
        else groupOrder
      let own : List Contribution :=
        if lv then
          (match kind with
          | .group _ => []
          | .light castShadow =>
            .lightPushed id :: (if castShadow then [.shadowPushed id] else [])
          | .mesh geometryId material frustumCulled inFrustum =>
            if (!frustumCulled || inFrustum) && material.visible then
              [.renderItem id geometryId material.id go]
            else []
          | .plain => [])
        else []
      own ++ (children.attach.map (fun c => projectObject camMask go c.1)).flatten
termination_by o => sizeOf o
decreasing_by
  have h := List.sizeOf_lt_of_mem c.2
  simp only [Object3D.node.sizeOf_spec]
  omega

/-! ## Theorems

Helper lemmas first, then one theorem per claim (with a witness where the
claim's theorem carries hypotheses). -/

theorem painter_le_iff (a b : RenderItem) :
    painterSortStable a b ≤ 0 ↔ opaqueSpecLe a b := by
  simp only [painterSortStable, opaqueSpecLe]
  split_ifs <;> omega

theorem reverse_le_iff (a b : RenderItem) :
    reversePainterSortStable a b ≤ 0 ↔ transparentSpecLe a b := by
  simp only [reversePainterSortStable, transparentSpecLe]
  split_ifs <;> omega

theorem opaqueSpecLe_trans (a b c : RenderItem) :
    opaqueSpecLe a b → opaqueSpecLe b c → opaqueSpecLe a c := by
  simp only [opaqueSpecLe]
  omega

theorem opaqueSpecLe_total (a b : RenderItem) : opaqueSpecLe a b ∨ opaqueSpecLe b a := by
  simp only [opaqueSpecLe]
  omega

theorem transparentSpecLe_trans (a b c : RenderItem) :
    transparentSpecLe a b → transparentSpecLe b c → transparentSpecLe a c := by
  simp only [transparentSpecLe]
  omega

theorem transparentSpecLe_total (a b : RenderItem) :
    transparentSpecLe a b ∨ transparentSpecLe b a := by
  simp only [transparentSpecLe]
  omega

theorem pairwise_of_length_le_one {r : RenderItem → RenderItem → Prop} :
    ∀ l : List RenderItem, l.length ≤ 1 → l.Pairwise r
  | [], _ => by simp
  | [a], _ => by simp
  | _ :: _ :: _, h => by simp at h

theorem sortBucket_perm (cmp : RenderItem → RenderItem → Int) (l : List RenderItem) :
    (sortBucket cmp l).Perm l := by
  unfold sortBucket jsSort
  split
  · exact List.perm_insertionSort _ _
  · exact List.Perm.refl l

theorem sortBucket_sorted (cmp : RenderItem → RenderItem → Int)
    (spec : RenderItem → RenderItem → Prop)
    (hiff : ∀ a b, cmp a b ≤ 0 ↔ spec a b)
    (htrans : ∀ a b c, spec a b → spec b c → spec a c)
    (htotal : ∀ a b, spec a b ∨ spec b a)
    (l : List RenderItem) : (sortBucket cmp l).Pairwise spec := by
  unfold sortBucket jsSort
  split
  · haveI : IsTotal RenderItem (fun a b => cmp a b ≤ 0) :=
      ⟨fun a b => by
        rcases htotal a b with h | h
        · exact Or.inl ((hiff a b).2 h)
        · exact Or.inr ((hiff b a).2 h)⟩
    haveI : IsTrans RenderItem (fun a b => cmp a b ≤ 0) :=
      ⟨fun a b c hab hbc =>
        (hiff a c).2 (htrans a b c ((hiff a b).1 hab) ((hiff b c).1 hbc))⟩
    exact (List.sorted_insertionSort _ l).imp (fun h => (hiff _ _).1 h)
  · exact pairwise_of_length_le_one l (by omega)

theorem sortBucket_idem (cmp : RenderItem → RenderItem → Int)
    (spec : RenderItem → RenderItem → Prop)
    (hiff : ∀ a b, cmp a b ≤ 0 ↔ spec a b)
    (htrans : ∀ a b c, spec a b → spec b c → spec a c)
    (htotal : ∀ a b, spec a b ∨ spec b a)
    (l : List RenderItem) : sortBucket cmp (sortBucket cmp l) = sortBucket cmp l := by
  have hsorted : (sortBucket cmp l).Pairwise (fun a b => cmp a b ≤ 0) :=
    (sortBucket_sorted cmp spec hiff htrans htotal l).imp (fun h => (hiff _ _).2 h)
  by_cases h : 1 < (sortBucket cmp l).length
  · rw [sortBucket, if_pos h]
    exact List.Sorted.insertionSort_eq hsorted
  · rw [sortBucket, if_neg h]

/-- C3: the default render-list sort orders the opaque bucket by
groupOrder, renderOrder, material id, depth ascending with item id as the
final tiebreak, and the transmissive/transparent buckets by groupOrder,
renderOrder, depth descending with item id as the final tiebreak; each
sorted bucket is a permutation of its input, sorting is idempotent (so
repeated sorts of the same input yield the same order), and the concrete
scenario — opaque items with groupOrder `[0,0,1]` and renderOrder
`[2,1,0]` — sorts to input indices `[1,0,2]`. -/
theorem C3_render_list_sort (s : WebGLRenderList) :
    ((s.sort).opaqueItems.Perm s.opaqueItems ∧
      (s.sort).opaqueItems.Pairwise opaqueSpecLe) ∧
    ((s.sort).transmissiveItems.Perm s.transmissiveItems ∧
      (s.sort).transmissiveItems.Pairwise transparentSpecLe) ∧
    ((s.sort).transparentItems.Perm s.transparentItems ∧
      (s.sort).transparentItems.Pairwise transparentSpecLe) ∧
    s.sort.sort = s.sort ∧
    ((((WebGLRenderList.init.push ⟨0, 0, 2, ⟨5, 0, false, true⟩, 0⟩).push
        ⟨1, 0, 1, ⟨5, 0, false, true⟩, 0⟩).push
        ⟨2, 1, 0, ⟨5, 0, false, true⟩, 0⟩).sort.opaqueItems.map (·.id)) = [1, 0, 2] := by
  refine ⟨⟨sortBucket_perm _ _, ?_⟩, ⟨sortBucket_perm _ _, ?_⟩, ⟨sortBucket_perm _ _, ?_⟩, ?_, ?_⟩
  · exact sortBucket_sorted _ _ painter_le_iff opaqueSpecLe_trans opaqueSpecLe_total _
  · exact sortBucket_sorted _ _ reverse_le_iff transparentSpecLe_trans transparentSpecLe_total _
  · exact sortBucket_sorted _ _ reverse_le_iff transparentSpecLe_trans transparentSpecLe_total _
  · unfold WebGLRenderList.sort
    simp only [WebGLRenderList.mk.injEq]
    exact ⟨sortBucket_idem _ _ painter_le_iff opaqueSpecLe_trans opaqueSpecLe_total _,
      sortBucket_idem _ _ reverse_le_iff transparentSpecLe_trans transparentSpecLe_total _,
      sortBucket_idem _ _ reverse_le_iff transparentSpecLe_trans transparentSpecLe_total _⟩
  · decide

/-- C9: `push` classifies a render item solely by its material: it goes to
the transmissive bucket when `transmission > 0` (even when `transparent`
is also true), else to the transparent bucket when `transparent === true`,
else to the opaque bucket, and exactly one bucket grows by the item. -/
theorem C9_push_classification (s : WebGLRenderList) (item : RenderItem) :
    (0 < item.material.transmission →
      s.push item = { s with transmissiveItems := s.transmissiveItems ++ [item] }) ∧
    (¬0 < item.material.transmission → item.material.transparent = true →
      s.push item = { s with transparentItems := s.transparentItems ++ [item] }) ∧
    (¬0 < item.material.transmission → item.material.transparent ≠ true →
      s.push item = { s with opaqueItems := s.opaqueItems ++ [item] }) ∧
    (s.push item).opaqueItems.length + (s.push item).transmissiveItems.length +
        (s.push item).transparentItems.length =
      s.opaqueItems.length + s.transmissiveItems.length + s.transparentItems.length + 1 := by
  refine ⟨fun h => by simp [WebGLRenderList.push, h], fun h ht => by simp [WebGLRenderList.push, h, ht],
    fun h ht => by simp [WebGLRenderList.push, h, ht], ?_⟩
  unfold WebGLRenderList.push
  split_ifs <;> simp <;> omega

/-- Witness for C9: an item whose material has `transmission > 0` and
`transparent = true` lands in the transmissive bucket (transmission takes
precedence). -/
theorem C9_push_classification_witness :
    WebGLRenderList.init.push ⟨1, 0, 0, ⟨3, 1, true, true⟩, 0⟩ =
      { WebGLRenderList.init with transmissiveItems := [⟨1, 0, 0, ⟨3, 1, true, true⟩, 0⟩] } := by
  have h := (C9_push_classification WebGLRenderList.init ⟨1, 0, 0, ⟨3, 1, true, true⟩, 0⟩).1
    (by decide)
  simpa [WebGLRenderList.init] using h

/-- C10: during render-list construction an invisible object is skipped
together with its whole subtree, whereas a visible object that fails the
camera's layer test contributes nothing itself but its children are still
traversed (with the inherited `groupOrder`). -/
theorem C10_visibility_and_layers (camMask : Nat) (groupOrder : Int) (id : Int)
    (layersMask : Nat) (kind : ObjKind) (children : List Object3D) :
    projectObject camMask groupOrder (.node id false layersMask kind children) = [] ∧
    (layersTest layersMask camMask = false →
      projectObject camMask groupOrder (.node id true layersMask kind children) =
        (children.map (projectObject camMask groupOrder)).flatten) := by
  constructor
  · cases kind <;> simp [projectObject]
  · intro h
    cases kind <;> simp [projectObject, h, List.attach_map_coe]

/-- Witness for C10: a camera on layer 0 (mask 1) and a parent on layer 1
(mask 2, failing the layer test) whose child is on layer 0: the parent
contributes nothing, the child's render item is still produced. -/
theorem C10_visibility_and_layers_witness :
    projectObject 1 0 (.node 1 true 2 (.mesh 7 ⟨4, 0, false, true⟩ false true)
        [.node 2 true 1 (.mesh 8 ⟨5, 0, false, true⟩ false true) []]) =
      [.renderItem 2 8 5 0] ∧
    projectObject 1 0 (.node 1 false 1 (.mesh 7 ⟨4, 0, false, true⟩ false true)
        [.node 2 true 1 (.mesh 8 ⟨5, 0, false, true⟩ false true) []]) = [] := by
  constructor
  · have h := (C10_visibility_and_layers 1 0 1 2 (.mesh 7 ⟨4, 0, false, true⟩ false true)
      [.node 2 true 1 (.mesh 8 ⟨5, 0, false, true⟩ false true) []]).2 (by decide)
    rw [h]
    simp [projectObject, layersTest]
  · exact (C10_visibility_and_layers 1 0 1 1 (.mesh 7 ⟨4, 0, false, true⟩ false true)
      [.node 2 true 1 (.mesh 8 ⟨5, 0, false, true⟩ false true) []]).1

theorem updateIter_fixpoint (s : AttributesState) (a : BufferAttribute)
    (h : update s a = ⟨s, a, [], none⟩) : ∀ n, updateIter s a n = (s, a, []) := by
  intro n
  induction n with
  | zero => rfl
  | succ n ih => simp [updateIter, h, ih]

theorem updateBuffer_calls (buffer : Nat) (a : BufferAttribute) :
    ∀ c ∈ (updateBuffer buffer a).2, c.isAllocation = false ∧ c.target = buffer := by
  intro c hcall
  simp only [updateBuffer, List.mem_cons, List.mem_append, List.mem_map] at hcall
  rcases hcall with rfl | hcall
  · exact ⟨rfl, rfl⟩
  rcases hcall with (hcall | hcall) | hcall
  · split at hcall
    · simp only [List.mem_singleton] at hcall
      subst hcall
      exact ⟨rfl, rfl⟩
    · simp at hcall
  · obtain ⟨r, hr, rfl⟩ := hcall
    exact ⟨rfl, rfl⟩
  · split at hcall
    · simp only [List.mem_singleton] at hcall
      subst hcall
      exact ⟨rfl, rfl⟩
    · simp at hcall

/-- C4: for a cached non-GLBufferAttribute whose version was bumped,
`update` with a changed byte size throws the explicit resizing error and
leaves the cached record, the attribute and the GL untouched; with an
unchanged byte size it re-uploads into the existing handle (no allocation,
every call targets the cached handle) and only advances the stored
version. -/
theorem C4_resize_error (s : AttributesState) (a : BufferAttribute) (d : BufferCacheEntry)
    (hGL : a.isGLBufferAttribute = false) (hc : s.cached = some d)
    (hv : d.version < a.version) :
    (d.size ≠ a.byteLength →
      update s a = ⟨s, a, [],
        some "THREE.WebGLAttributes: The size of the buffer attribute's array buffer does not match the original size. Resizing buffer attributes is not supported."⟩) ∧
    (d.size = a.byteLength →
      (update s a).error = none ∧
      (update s a).state.cached = some { d with version := a.version } ∧
      (update s a).state.nextBuffer = s.nextBuffer ∧
      (∀ c ∈ (update s a).calls, c.isAllocation = false ∧ c.target = d.buffer)) := by
  constructor
  · intro hsize
    simp [update, hGL, hc, hv, hsize]
  · intro hsize
    have hne : ¬d.size ≠ a.byteLength := by simp [hsize]
    have hupd : update s a =
        ⟨{ s with cached := some { d with version := a.version } },
          (updateBuffer d.buffer a).1, (updateBuffer d.buffer a).2, none⟩ := by
      simp [update, hGL, hc, hv, hne]
    rw [hupd]
    exact ⟨rfl, rfl, rfl, updateBuffer_calls d.buffer a⟩

/-- Witness for C4: a cached 4-byte `Int8Array` attribute bumped to
version 1 with an 8-byte array makes `update` fail with the resizing
error and an unchanged state; with a 4-byte array it re-uploads in
place. -/
theorem C4_resize_error_witness :
    (update ⟨some ⟨0, .byte, 1, 0, 4⟩, 1⟩
        ⟨false, 0, .byte, 1, .int8, false, [1, 2, 3, 4, 5, 6, 7, 8], 0, 1, ⟨0, -1⟩, []⟩).error =
      some "THREE.WebGLAttributes: The size of the buffer attribute's array buffer does not match the original size. Resizing buffer attributes is not supported." ∧
    (update ⟨some ⟨0, .byte, 1, 0, 4⟩, 1⟩
        ⟨false, 0, .byte, 1, .int8, false, [1, 2, 3, 4], 0, 1, ⟨0, -1⟩, []⟩).error = none := by
  constructor
  · have h := (C4_resize_error ⟨some ⟨0, .byte, 1, 0, 4⟩, 1⟩
      ⟨false, 0, .byte, 1, .int8, false, [1, 2, 3, 4, 5, 6, 7, 8], 0, 1, ⟨0, -1⟩, []⟩
      ⟨0, .byte, 1, 0, 4⟩ rfl rfl (by decide)).1 (by decide)
    rw [h]
  · exact ((C4_resize_error ⟨some ⟨0, .byte, 1, 0, 4⟩, 1⟩
      ⟨false, 0, .byte, 1, .int8, false, [1, 2, 3, 4], 0, 1, ⟨0, -1⟩, []⟩
      ⟨0, .byte, 1, 0, 4⟩ rfl rfl (by decide)).2 (by decide)).1

/-- C5: the first `update` of an uncached attribute creates the buffer and
performs exactly one upload; every further `update` with the version
unchanged is a complete no-op (no GL call, cache state and attribute
unchanged), for any number of repetitions. -/
theorem C5_update_idempotent (a : BufferAttribute) (h : a.isGLBufferAttribute = false) :
    (update AttributesState.init a).calls.countP (fun c => c.isUpload) = 1 ∧
    (update AttributesState.init a).error = none ∧
    ∀ n, updateIter (update AttributesState.init a).state (update AttributesState.init a).attr n =
      ((update AttributesState.init a).state, (update AttributesState.init a).attr, []) := by
  have hfirst : update AttributesState.init a =
      ⟨⟨some ⟨0, glTypeOf a.kind a.isFloat16BufferAttribute, a.kind.bytesPerElement,
          a.version, a.byteLength⟩, 1⟩, a,
        [.createBuffer 0, .bindBuffer 0, .bufferData 0 a.arrayData a.usage], none⟩ := by
    simp [update, h, createBuffer, AttributesState.init]
  refine ⟨?_, ?_, ?_⟩
  · rw [hfirst]
    simp [List.countP_cons, AttrGLCall.isUpload]
  · rw [hfirst]
  · apply updateIter_fixpoint
    rw [hfirst]
    simp [update, h]

/-- Witness for C5: a concrete `Float32Array` attribute — one upload on
the first `update`, and three further `update`s change nothing and issue
no call. -/
theorem C5_update_idempotent_witness :
    (update AttributesState.init ⟨false, 0, .float, 4, .float32, false, [1, 2], 0, 0, ⟨0, -1⟩, []⟩).calls.countP
        (fun c => c.isUpload) = 1 ∧
    updateIter (update AttributesState.init ⟨false, 0, .float, 4, .float32, false, [1, 2], 0, 0, ⟨0, -1⟩, []⟩).state
        (update AttributesState.init ⟨false, 0, .float, 4, .float32, false, [1, 2], 0, 0, ⟨0, -1⟩, []⟩).attr 3 =
      ((update AttributesState.init ⟨false, 0, .float, 4, .float32, false, [1, 2], 0, 0, ⟨0, -1⟩, []⟩).state,
        (update AttributesState.init ⟨false, 0, .float, 4, .float32, false, [1, 2], 0, 0, ⟨0, -1⟩, []⟩).attr, []) := by
  refine ⟨(C5_update_idempotent _ rfl).1, (C5_update_idempotent _ rfl).2.2 3⟩

theorem assocLookup_cons {K V : Type} [DecidableEq K] (e : K × V) (l : List (K × V)) (k : K) :
    assocLookup (e :: l) k = if e.1 = k then some e.2 else assocLookup l k := by
  by_cases h : e.1 = k
  · unfold assocLookup
    rw [List.find?_cons_of_pos _ (by simp [h])]
    simp [h]
  · unfold assocLookup
    rw [List.find?_cons_of_neg _ (by simp [h])]
    simp [h]

theorem assocLookup_assocSet_self {K V : Type} [DecidableEq K] (l : List (K × V)) (k : K) (v : V) :
    assocLookup (assocSet l k v) k = some v := by
  induction l with
  | nil => simp [assocSet, assocLookup_cons]
  | cons e rest ih =>
    by_cases h : e.1 = k
    · simp [assocSet, h, assocLookup_cons]
    · simp [assocSet, h, assocLookup_cons, ih]

theorem assocLookup_assocSet_ne {K V : Type} [DecidableEq K] (l : List (K × V)) (k k' : K) (v : V)
    (h : k' ≠ k) : assocLookup (assocSet l k v) k' = assocLookup l k' := by
  induction l with
  | nil => simp [assocSet, assocLookup_cons, assocLookup, Ne.symm h]
  | cons e rest ih =>
    by_cases he : e.1 = k
    · subst he
      simp [assocSet, assocLookup_cons, Ne.symm h, h]
    · simp [assocSet, he, assocLookup_cons, ih]

theorem bindFramebuffer_neg (s : GLStateTracker) (target : FBTarget) (fb : Option Nat)
    (hb : assocLookup s.currentBoundFramebuffers target = some fb) :
    s.bindFramebuffer target fb = (false, s, []) := by
  simp [GLStateTracker.bindFramebuffer, hb]

theorem bindFramebuffer_generic_pos (s : GLStateTracker) (fb : Option Nat)
    (hb : assocLookup s.currentBoundFramebuffers .framebuffer ≠ some fb) :
    s.bindFramebuffer .framebuffer fb =
      (true,
        { s with currentBoundFramebuffers :=
            assocSet (assocSet s.currentBoundFramebuffers .framebuffer fb) .drawFramebuffer fb },
        [.bindFramebuffer .framebuffer fb]) := by
  simp [GLStateTracker.bindFramebuffer, hb]

theorem bindFramebuffer_draw_pos (s : GLStateTracker) (fb : Option Nat)
    (hb : assocLookup s.currentBoundFramebuffers .drawFramebuffer ≠ some fb) :
    s.bindFramebuffer .drawFramebuffer fb =
      (true,
        { s with currentBoundFramebuffers :=
            assocSet (assocSet s.currentBoundFramebuffers .drawFramebuffer fb) .framebuffer fb },
        [.bindFramebuffer .drawFramebuffer fb]) := by
  simp [GLStateTracker.bindFramebuffer, hb]

theorem bindFramebuffer_read_pos (s : GLStateTracker) (fb : Option Nat)
    (hb : assocLookup s.currentBoundFramebuffers .readFramebuffer ≠ some fb) :
    s.bindFramebuffer .readFramebuffer fb =
      (true,
        { s with currentBoundFramebuffers :=
            assocSet s.currentBoundFramebuffers .readFramebuffer fb },
        [.bindFramebuffer .readFramebuffer fb]) := by
  simp [GLStateTracker.bindFramebuffer, hb]

/-- C7 counterexample: the claim says the read, draw and generic targets
are all aliased, so a bind of the same framebuffer under the read target
right after binding it under the generic target would be suppressed; in
the code the read target is tracked independently, and the second bind is
issued (returns `true`). -/
theorem C7_counterexample :
    ((GLStateTracker.raw.bindFramebuffer .framebuffer (some 1)).2.1.bindFramebuffer
        .readFramebuffer (some 1)).1 = true := by decide

/-- C7 (amended): `bindFramebuffer` aliases only the draw and generic
framebuffer targets: a real bind under either updates both snapshot
entries (the read target's entry is never touched by them, and a read
bind touches neither of theirs), so a subsequent bind of the same
framebuffer under the other of the two is suppressed; the function
returns true exactly when a real `gl.bindFramebuffer` was issued and
false when suppressed. -/
theorem C7_bindFramebuffer_aliasing (s : GLStateTracker) (target : FBTarget) (fb : Option Nat) :
    ((s.bindFramebuffer target fb).1 = true →
      (s.bindFramebuffer target fb).2.2 = [.bindFramebuffer target fb]) ∧
    ((s.bindFramebuffer target fb).1 = false →
      (s.bindFramebuffer target fb).2.2 = [] ∧ (s.bindFramebuffer target fb).2.1 = s) ∧
    ((s.bindFramebuffer target fb).1 = true ↔
      assocLookup s.currentBoundFramebuffers target ≠ some fb) ∧
    ((s.bindFramebuffer .framebuffer fb).1 = true →
      assocLookup (s.bindFramebuffer .framebuffer fb).2.1.currentBoundFramebuffers
          .drawFramebuffer = some fb ∧
      assocLookup (s.bindFramebuffer .framebuffer fb).2.1.currentBoundFramebuffers
          .framebuffer = some fb) ∧
    ((s.bindFramebuffer .drawFramebuffer fb).1 = true →
      assocLookup (s.bindFramebuffer .drawFramebuffer fb).2.1.currentBoundFramebuffers
          .framebuffer = some fb ∧
      assocLookup (s.bindFramebuffer .drawFramebuffer fb).2.1.currentBoundFramebuffers
          .drawFramebuffer = some fb) ∧
    (assocLookup s.currentBoundFramebuffers .drawFramebuffer =
        assocLookup s.currentBoundFramebuffers .framebuffer →
      (((s.bindFramebuffer .framebuffer fb).2.1.bindFramebuffer .drawFramebuffer fb).1 = false ∧
       ((s.bindFramebuffer .drawFramebuffer fb).2.1.bindFramebuffer .framebuffer fb).1 = false)) ∧
    (assocLookup (s.bindFramebuffer .framebuffer fb).2.1.currentBoundFramebuffers
        .readFramebuffer = assocLookup s.currentBoundFramebuffers .readFramebuffer ∧
     assocLookup (s.bindFramebuffer .drawFramebuffer fb).2.1.currentBoundFramebuffers
        .readFramebuffer = assocLookup s.currentBoundFramebuffers .readFramebuffer ∧
     assocLookup (s.bindFramebuffer .readFramebuffer fb).2.1.currentBoundFramebuffers
        .framebuffer = assocLookup s.currentBoundFramebuffers .framebuffer ∧
     assocLookup (s.bindFramebuffer .readFramebuffer fb).2.1.currentBoundFramebuffers
        .drawFramebuffer = assocLookup s.currentBoundFramebuffers .drawFramebuffer) := by
  refine ⟨?_, ?_, ?_, ?_, ?_, ?_, ?_⟩
  · intro h
    by_cases hb : assocLookup s.currentBoundFramebuffers target = some fb
    · rw [bindFramebuffer_neg s target fb hb] at h
      simp at h
    · simp [GLStateTracker.bindFramebuffer, hb]
  · intro h
    by_cases hb : assocLookup s.currentBoundFramebuffers target = some fb
    · rw [bindFramebuffer_neg s target fb hb]
      exact ⟨rfl, rfl⟩
    · simp [GLStateTracker.bindFramebuffer, hb] at h
  · by_cases hb : assocLookup s.currentBoundFramebuffers target = some fb
    · rw [bindFramebuffer_neg s target fb hb]
      simp [hb]
    · simp [GLStateTracker.bindFramebuffer, hb]
  · intro h
    by_cases hb : assocLookup s.currentBoundFramebuffers .framebuffer = some fb
    · rw [bindFramebuffer_neg s _ fb hb] at h
      simp at h
    · rw [bindFramebuffer_generic_pos s fb hb]
      refine ⟨assocLookup_assocSet_self _ _ _, ?_⟩
      rw [assocLookup_assocSet_ne _ _ _ _ (by decide)]
      exact assocLookup_assocSet_self _ _ _
  · intro h
    by_cases hb : assocLookup s.currentBoundFramebuffers .drawFramebuffer = some fb
    · rw [bindFramebuffer_neg s _ fb hb] at h
      simp at h
    · rw [bindFramebuffer_draw_pos s fb hb]
      refine ⟨assocLookup_assocSet_self _ _ _, ?_⟩
      rw [assocLookup_assocSet_ne _ _ _ _ (by decide)]
      exact assocLookup_assocSet_self _ _ _
  · intro h
    constructor
    · by_cases hb : assocLookup s.currentBoundFramebuffers .framebuffer = some fb
      · rw [bindFramebuffer_neg s _ fb hb, bindFramebuffer_neg s _ fb (h.trans hb)]
      · rw [bindFramebuffer_generic_pos s fb hb,
          bindFramebuffer_neg _ _ fb (assocLookup_assocSet_self _ _ _)]
    · by_cases hb : assocLookup s.currentBoundFramebuffers .drawFramebuffer = some fb
      · rw [bindFramebuffer_neg s _ fb hb, bindFramebuffer_neg s _ fb (h ▸ hb)]
      · rw [bindFramebuffer_draw_pos s fb hb,
          bindFramebuffer_neg _ _ fb (assocLookup_assocSet_self _ _ _)]
  · refine ⟨?_, ?_, ?_, ?_⟩
    · by_cases hb : assocLookup s.currentBoundFramebuffers .framebuffer = some fb
      · rw [bindFramebuffer_neg s _ fb hb]
      · rw [bindFramebuffer_generic_pos s fb hb]
        rw [assocLookup_assocSet_ne _ _ _ _ (by decide),
          assocLookup_assocSet_ne _ _ _ _ (by decide)]
    · by_cases hb : assocLookup s.currentBoundFramebuffers .drawFramebuffer = some fb
      · rw [bindFramebuffer_neg s _ fb hb]
      · rw [bindFramebuffer_draw_pos s fb hb]
        rw [assocLookup_assocSet_ne _ _ _ _ (by decide),
          assocLookup_assocSet_ne _ _ _ _ (by decide)]
    · by_cases hb : assocLookup s.currentBoundFramebuffers .readFramebuffer = some fb
      · rw [bindFramebuffer_neg s _ fb hb]
      · rw [bindFramebuffer_read_pos s fb hb]
        rw [assocLookup_assocSet_ne _ _ _ _ (by decide)]
    · by_cases hb : assocLookup s.currentBoundFramebuffers .readFramebuffer = some fb
      · rw [bindFramebuffer_neg s _ fb hb]
      · rw [bindFramebuffer_read_pos s fb hb]
        rw [assocLookup_assocSet_ne _ _ _ _ (by decide)]

/-- Witness for C7 (amended): from the fresh tracker, binding framebuffer
1 under the generic target updates the draw alias, the repeated draw-target
bind is suppressed, and the read-target entry is untouched. -/
theorem C7_bindFramebuffer_aliasing_witness :
    ((GLStateTracker.raw.bindFramebuffer .framebuffer (some 1)).1 = true ∧
      assocLookup (GLStateTracker.raw.bindFramebuffer .framebuffer (some 1)).2.1.currentBoundFramebuffers
        .drawFramebuffer = some (some 1)) ∧
    ((GLStateTracker.raw.bindFramebuffer .framebuffer (some 1)).2.1.bindFramebuffer
        .drawFramebuffer (some 1)).1 = false := by
  have h4 := (C7_bindFramebuffer_aliasing GLStateTracker.raw .framebuffer (some 1)).2.2.2.1
    (by decide)
  have h6 := ((C7_bindFramebuffer_aliasing GLStateTracker.raw .framebuffer (some 1)).2.2.2.2.2.1
    (by decide)).1
  exact ⟨⟨by decide, h4.1⟩, h6⟩

theorem enable_lookup (s : GLStateTracker) (id : GLCap) :
    assocLookup (s.enable id).1.enabledCapabilities id = some true := by
  by_cases h : assocLookup s.enabledCapabilities id = some true
  · simp [GLStateTracker.enable, h]
  · simp [GLStateTracker.enable, h, assocLookup_assocSet_self]

theorem disable_lookup (s : GLStateTracker) (id : GLCap) :
    assocLookup (s.disable id).1.enabledCapabilities id = some false := by
  by_cases h : assocLookup s.enabledCapabilities id = some false
  · simp [GLStateTracker.disable, h]
  · simp [GLStateTracker.disable, h, assocLookup_assocSet_self]

theorem enable_idem (s : GLStateTracker) (id : GLCap) :
    (s.enable id).1.enable id = ((s.enable id).1, []) := by
  have h := enable_lookup s id
  generalize hX : (s.enable id).1 = X at h ⊢
  simp [GLStateTracker.enable, h]

theorem disable_idem (s : GLStateTracker) (id : GLCap) :
    (s.disable id).1.disable id = ((s.disable id).1, []) := by
  have h := disable_lookup s id
  generalize hX : (s.disable id).1 = X at h ⊢
  simp [GLStateTracker.disable, h]

theorem enable_change (s : GLStateTracker) (id : GLCap)
    (h : assocLookup s.enabledCapabilities id ≠ some true) :
    s.enable id = ({ s with enabledCapabilities := assocSet s.enabledCapabilities id true },
      [.enable id]) := by
  simp [GLStateTracker.enable, h]

theorem disable_change (s : GLStateTracker) (id : GLCap)
    (h : assocLookup s.enabledCapabilities id ≠ some false) :
    s.disable id = ({ s with enabledCapabilities := assocSet s.enabledCapabilities id false },
      [.disable id]) := by
  simp [GLStateTracker.disable, h]

theorem useProgram_idem (s : GLStateTracker) (p : Nat) :
    (s.useProgram p).2.1.useProgram p = (false, (s.useProgram p).2.1, []) := by
  by_cases h : s.currentProgram = some p <;> simp [GLStateTracker.useProgram, h]

theorem useProgram_change (s : GLStateTracker) (p : Nat) (h : s.currentProgram ≠ some p) :
    s.useProgram p = (true, { s with currentProgram := some p }, [.useProgram p]) := by
  simp [GLStateTracker.useProgram, h]

theorem bindFramebuffer_idem (s : GLStateTracker) (t : FBTarget) (fb : Option Nat) :
    (s.bindFramebuffer t fb).2.1.bindFramebuffer t fb = (false, (s.bindFramebuffer t fb).2.1, []) := by
  by_cases hb : assocLookup s.currentBoundFramebuffers t = some fb
  · rw [bindFramebuffer_neg s t fb hb, bindFramebuffer_neg s t fb hb]
  · cases t
    · rw [bindFramebuffer_generic_pos s fb hb]
      apply bindFramebuffer_neg
      rw [assocLookup_assocSet_ne _ _ _ _ (by decide)]
      exact assocLookup_assocSet_self _ _ _
    · rw [bindFramebuffer_draw_pos s fb hb]
      apply bindFramebuffer_neg
      rw [assocLookup_assocSet_ne _ _ _ _ (by decide)]
      exact assocLookup_assocSet_self _ _ _
    · rw [bindFramebuffer_read_pos s fb hb]
      apply bindFramebuffer_neg
      exact assocLookup_assocSet_self _ _ _

theorem setFlipSided_idem (s : GLStateTracker) (b : Bool) :
    setFlipSided (setFlipSided s b).1 b = ((setFlipSided s b).1, []) := by
  by_cases h : s.currentFlipSided = some b <;> simp [setFlipSided, h]

theorem setFlipSided_change (s : GLStateTracker) (b : Bool) (h : s.currentFlipSided ≠ some b) :
    setFlipSided s b = ({ s with currentFlipSided := some b }, [.frontFace b]) := by
  simp [setFlipSided, h]

theorem depthSetFunc_idem (s : GLStateTracker) (f : DepthMode) :
    depthSetFunc (depthSetFunc s f).1 f = ((depthSetFunc s f).1, []) := by
  by_cases h : s.currentDepthFunc = some f <;> simp [depthSetFunc, h]

theorem depthSetFunc_change (s : GLStateTracker) (f : DepthMode) (h : s.currentDepthFunc ≠ some f) :
    depthSetFunc s f = ({ s with currentDepthFunc := some f }, [.depthFunc f]) := by
  simp [depthSetFunc, h]

theorem depthSetMask_idem (s : GLStateTracker) (m : Bool) :
    depthSetMask (depthSetMask s m).1 m = ((depthSetMask s m).1, []) := by
  by_cases h : s.currentDepthMask = some m
  · simp [depthSetMask, h]
  · by_cases hl : s.depthLocked <;> simp [depthSetMask, h, hl]

theorem depthSetMask_change (s : GLStateTracker) (m : Bool)
    (h : s.currentDepthMask ≠ some m) (hl : ¬s.depthLocked) :
    depthSetMask s m = ({ s with currentDepthMask := some m }, [.depthMask m]) := by
  simp [depthSetMask, h, hl]

theorem stencilSetFunc_idem (s : GLStateTracker) (f r m : Nat) :
    stencilSetFunc (stencilSetFunc s f r m).1 f r m = ((stencilSetFunc s f r m).1, []) := by
  by_cases h : s.currentStencilFunc ≠ some f ∨ s.currentStencilRef ≠ some r ∨
      s.currentStencilFuncMask ≠ some m
  · simp [stencilSetFunc, if_pos h]
  · simp [stencilSetFunc, if_neg h]

theorem stencilSetFunc_change (s : GLStateTracker) (f r m : Nat)
    (h : s.currentStencilFunc ≠ some f ∨ s.currentStencilRef ≠ some r ∨
      s.currentStencilFuncMask ≠ some m) :
    stencilSetFunc s f r m =
      ({ s with
          currentStencilFunc := some f
          currentStencilRef := some r
          currentStencilFuncMask := some m }, [.stencilFunc f r m]) := by
  simp only [stencilSetFunc, if_pos h]

theorem stencilSetOp_idem (s : GLStateTracker) (f zf zp : Nat) :
    stencilSetOp (stencilSetOp s f zf zp).1 f zf zp = ((stencilSetOp s f zf zp).1, []) := by
  by_cases h : s.currentStencilFail ≠ some f ∨ s.currentStencilZFail ≠ some zf ∨
      s.currentStencilZPass ≠ some zp
  · simp [stencilSetOp, if_pos h]
  · simp [stencilSetOp, if_neg h]

theorem stencilSetOp_change (s : GLStateTracker) (f zf zp : Nat)
    (h : s.currentStencilFail ≠ some f ∨ s.currentStencilZFail ≠ some zf ∨
      s.currentStencilZPass ≠ some zp) :
    stencilSetOp s f zf zp =
      ({ s with
          currentStencilFail := some f
          currentStencilZFail := some zf
          currentStencilZPass := some zp }, [.stencilOp f zf zp]) := by
  simp only [stencilSetOp, if_pos h]

theorem stencilSetMask_idem (s : GLStateTracker) (m : Nat) :
    stencilSetMask (stencilSetMask s m).1 m = ((stencilSetMask s m).1, []) := by
  by_cases h : s.currentStencilMask = some m
  · simp [stencilSetMask, h]
  · by_cases hl : s.stencilLocked <;> simp [stencilSetMask, h, hl]

theorem stencilSetMask_change (s : GLStateTracker) (m : Nat)
    (h : s.currentStencilMask ≠ some m) (hl : ¬s.stencilLocked) :
    stencilSetMask s m = ({ s with currentStencilMask := some m }, [.stencilMask m]) := by
  simp [stencilSetMask, h, hl]

theorem setCullFace_none (s : GLStateTracker) :
    setCullFace s .cullFaceNone =
      ({ (s.disable .cullFaceCap).1 with currentCullFace := some .cullFaceNone },
        (s.disable .cullFaceCap).2) := by
  simp [setCullFace]

theorem setCullFace_some (s : GLStateTracker) (c : CullFaceMode) (hc : c ≠ .cullFaceNone) :
    setCullFace s c =
      ({ (s.enable .cullFaceCap).1 with currentCullFace := some c },
        (s.enable .cullFaceCap).2 ++
          (if (s.enable .cullFaceCap).1.currentCullFace ≠ some c then [.cullFace c] else [])) := by
  simp [setCullFace, hc]

theorem setCullFace_idem (s : GLStateTracker) (c : CullFaceMode) :
    setCullFace (setCullFace s c).1 c = ((setCullFace s c).1, []) := by
  by_cases hc : c = .cullFaceNone
  · subst hc
    have h := disable_lookup s .cullFaceCap
    rw [setCullFace_none, setCullFace_none]
    generalize hX : (s.disable .cullFaceCap).1 = X at h ⊢
    simp [GLStateTracker.disable, h]
  · have h := enable_lookup s .cullFaceCap
    rw [setCullFace_some s c hc, setCullFace_some _ c hc]
    generalize hX : (s.enable .cullFaceCap).1 = X at h ⊢
    simp [GLStateTracker.enable, h]

theorem setBlending_no_state (s : GLStateTracker) (e : BlendEq) (sf df : BlendFactor)
    (ea : Option BlendEq) (sfa dfa : Option BlendFactor) (c : BlendColor) (al : Int) (pm : Bool) :
    (setBlending s .noBlending e sf df ea sfa dfa c al pm).1.currentBlendingEnabled = false := by
  obtain ⟨f1, f2, f3, f4, f5, f6, f7, f8, f9, f10, f11, f12, f13, f14, f15, f16, f17, f18,
    f19, f20, f21, f22, f23, f24, f25, f26, f27⟩ := s
  simp only [setBlending]
  split_ifs <;> simp_all

theorem setBlending_no_noop (s : GLStateTracker) (e : BlendEq) (sf df : BlendFactor)
    (ea : Option BlendEq) (sfa dfa : Option BlendFactor) (c : BlendColor) (al : Int) (pm : Bool)
    (h1 : s.currentBlendingEnabled = false) :
    setBlending s .noBlending e sf df ea sfa dfa c al pm = (s, []) := by
  simp [setBlending, h1]

theorem setBlending_builtin_state (s : GLStateTracker) (b : Blending) (e : BlendEq)
    (sf df : BlendFactor) (ea : Option BlendEq) (sfa dfa : Option BlendFactor)
    (c : BlendColor) (al : Int) (pm : Bool)
    (hb : b ≠ .noBlending) (hcb : b ≠ .customBlending) :
    (setBlending s b e sf df ea sfa dfa c al pm).1.currentBlendingEnabled = true ∧
    (setBlending s b e sf df ea sfa dfa c al pm).1.currentBlending = some b ∧
    (setBlending s b e sf df ea sfa dfa c al pm).1.currentPremultipledAlpha = pm := by
  obtain ⟨f1, f2, f3, f4, f5, f6, f7, f8, f9, f10, f11, f12, f13, f14, f15, f16, f17, f18,
    f19, f20, f21, f22, f23, f24, f25, f26, f27⟩ := s
  simp only [setBlending, if_neg hb, if_neg hcb]
  split_ifs <;> simp_all

theorem setBlending_builtin_noop (s : GLStateTracker) (b : Blending) (e : BlendEq)
    (sf df : BlendFactor) (ea : Option BlendEq) (sfa dfa : Option BlendFactor)
    (c : BlendColor) (al : Int) (pm : Bool)
    (hb : b ≠ .noBlending) (hcb : b ≠ .customBlending)
    (h1 : s.currentBlendingEnabled = true) (h2 : s.currentBlending = some b)
    (h3 : s.currentPremultipledAlpha = pm) :
    setBlending s b e sf df ea sfa dfa c al pm = (s, []) := by
  obtain ⟨f1, f2, f3, f4, f5, f6, f7, f8, f9, f10, f11, f12, f13, f14, f15, f16, f17, f18,
    f19, f20, f21, f22, f23, f24, f25, f26, f27⟩ := s
  simp only at h1 h2 h3
  subst h1 h2 h3
  simp [setBlending, hb, hcb]

theorem setBlending_custom_state (s : GLStateTracker) (e : BlendEq)
    (sf df : BlendFactor) (ea : Option BlendEq) (sfa dfa : Option BlendFactor)
    (c : BlendColor) (al : Int) (pm : Bool) :
    (setBlending s .customBlending e sf df ea sfa dfa c al pm).1.currentBlendingEnabled = true ∧
    (setBlending s .customBlending e sf df ea sfa dfa c al pm).1.currentBlendEquation = some e ∧
    (setBlending s .customBlending e sf df ea sfa dfa c al pm).1.currentBlendEquationAlpha =
      some (ea.getD e) ∧
    (setBlending s .customBlending e sf df ea sfa dfa c al pm).1.currentBlendSrc = some sf ∧
    (setBlending s .customBlending e sf df ea sfa dfa c al pm).1.currentBlendDst = some df ∧
    (setBlending s .customBlending e sf df ea sfa dfa c al pm).1.currentBlendSrcAlpha =
      some (sfa.getD sf) ∧
    (setBlending s .customBlending e sf df ea sfa dfa c al pm).1.currentBlendDstAlpha =
      some (dfa.getD df) ∧
    (setBlending s .customBlending e sf df ea sfa dfa c al pm).1.currentBlendColor = c ∧
    (setBlending s .customBlending e sf df ea sfa dfa c al pm).1.currentBlendAlpha = al ∧
    (setBlending s .customBlending e sf df ea sfa dfa c al pm).1.currentBlending =
      some .customBlending ∧
    (setBlending s .customBlending e sf df ea sfa dfa c al pm).1.currentPremultipledAlpha =
      false := by
  obtain ⟨f1, f2, f3, f4, f5, f6, f7, f8, f9, f10, f11, f12, f13, f14, f15, f16, f17, f18,
    f19, f20, f21, f22, f23, f24, f25, f26, f27⟩ := s
  simp only [setBlending, reduceIte, ne_eq, reduceCtorEq, not_false_eq_true, if_true, if_false]
  split_ifs <;> simp_all

theorem setBlending_custom_noop (s : GLStateTracker) (e : BlendEq)
    (sf df : BlendFactor) (ea : Option BlendEq) (sfa dfa : Option BlendFactor)
    (c : BlendColor) (al : Int) (pm : Bool)
    (h1 : s.currentBlendingEnabled = true)
    (h2 : s.currentBlendEquation = some e) (h3 : s.currentBlendEquationAlpha = some (ea.getD e))
    (h4 : s.currentBlendSrc = some sf) (h5 : s.currentBlendDst = some df)
    (h6 : s.currentBlendSrcAlpha = some (sfa.getD sf))
    (h7 : s.currentBlendDstAlpha = some (dfa.getD df))
    (h8 : s.currentBlendColor = c) (h9 : s.currentBlendAlpha = al)
    (h10 : s.currentBlending = some .customBlending)
    (h11 : s.currentPremultipledAlpha = false) :
    setBlending s .customBlending e sf df ea sfa dfa c al pm = (s, []) := by
  obtain ⟨f1, f2, f3, f4, f5, f6, f7, f8, f9, f10, f11, f12, f13, f14, f15, f16, f17, f18,
    f19, f20, f21, f22, f23, f24, f25, f26, f27⟩ := s
  simp only at h1 h2 h3 h4 h5 h6 h7 h8 h9 h10 h11
  subst h1 h2 h3 h4 h5 h6 h7 h8 h9 h10 h11
  simp [setBlending]

theorem setBlending_idem (s : GLStateTracker) (b : Blending) (e : BlendEq)
    (sf df : BlendFactor) (ea : Option BlendEq) (sfa dfa : Option BlendFactor)
    (c : BlendColor) (al : Int) (pm : Bool) :
    setBlending (setBlending s b e sf df ea sfa dfa c al pm).1 b e sf df ea sfa dfa c al pm =
      ((setBlending s b e sf df ea sfa dfa c al pm).1, []) := by
  by_cases hb : b = .noBlending
  · subst hb
    exact setBlending_no_noop _ _ _ _ _ _ _ _ _ _ (setBlending_no_state s e sf df ea sfa dfa c al pm)
  · by_cases hcb : b = .customBlending
    · subst hcb
      obtain ⟨h1, h2, h3, h4, h5, h6, h7, h8, h9, h10, h11⟩ :=
        setBlending_custom_state s e sf df ea sfa dfa c al pm
      exact setBlending_custom_noop _ _ _ _ _ _ _ _ _ _ h1 h2 h3 h4 h5 h6 h7 h8 h9 h10 h11
    · obtain ⟨h1, h2, h3⟩ := setBlending_builtin_state s b e sf df ea sfa dfa c al pm hb hcb
      exact setBlending_builtin_noop _ _ _ _ _ _ _ _ _ _ _ hb hcb h1 h2 h3

theorem bindFramebuffer_change (s : GLStateTracker) (t : FBTarget) (fb : Option Nat)
    (hb : assocLookup s.currentBoundFramebuffers t ≠ some fb) :
    (s.bindFramebuffer t fb).1 = true ∧ (s.bindFramebuffer t fb).2.2 = [.bindFramebuffer t fb] ∧
    assocLookup (s.bindFramebuffer t fb).2.1.currentBoundFramebuffers t = some fb := by
  cases t
  · rw [bindFramebuffer_generic_pos s fb hb]
    refine ⟨rfl, rfl, ?_⟩
    rw [assocLookup_assocSet_ne _ _ _ _ (by decide)]
    exact assocLookup_assocSet_self _ _ _
  · rw [bindFramebuffer_draw_pos s fb hb]
    refine ⟨rfl, rfl, ?_⟩
    rw [assocLookup_assocSet_ne _ _ _ _ (by decide)]
    exact assocLookup_assocSet_self _ _ _
  · rw [bindFramebuffer_read_pos s fb hb]
    exact ⟨rfl, rfl, assocLookup_assocSet_self _ _ _⟩

/-- C2 counterexample: `setBlending` is one of the state-tracker setters,
and switching the freshly initialised tracker to normal blending — a value
different from the mirrored snapshot — issues three GL calls
(`enable BLEND`, `blendEquation`, `blendFuncSeparate`), not exactly
once. -/
theorem C2_counterexample :
    (setBlending GLStateTracker.initial .normalBlending .addEquation .srcAlpha .oneMinusSrcAlpha
        none none none ⟨0, 0, 0⟩ 0 false).2.length = 3 ∧
    ¬(setBlending GLStateTracker.initial .normalBlending .addEquation .srcAlpha .oneMinusSrcAlpha
        none none none ⟨0, 0, 0⟩ 0 false).2.length = 1 := by decide

/-- C2 (amended): every modelled state-tracker setter invoked twice in
succession with the same value issues the underlying GL call(s) at most
once in total — the second invocation issues no call and leaves the
snapshot unchanged; invoked with a value different from the mirrored
snapshot, the simple setters (enable, disable, useProgram,
bindFramebuffer, flip-sided, depth func/mask, stencil func/op/mask) issue
the underlying call exactly once and update the snapshot to the new
value, while the compound setters (`setCullFace`, `setBlending`) may
issue several calls for one transition. -/
theorem C2_state_setters (s : GLStateTracker) :
    (∀ id, (s.enable id).1.enable id = ((s.enable id).1, [])) ∧
    (∀ id, (s.disable id).1.disable id = ((s.disable id).1, [])) ∧
    (∀ p, (s.useProgram p).2.1.useProgram p = (false, (s.useProgram p).2.1, [])) ∧
    (∀ t fb, (s.bindFramebuffer t fb).2.1.bindFramebuffer t fb =
      (false, (s.bindFramebuffer t fb).2.1, [])) ∧
    (∀ b, setFlipSided (setFlipSided s b).1 b = ((setFlipSided s b).1, [])) ∧
    (∀ c, setCullFace (setCullFace s c).1 c = ((setCullFace s c).1, [])) ∧
    (∀ f, depthSetFunc (depthSetFunc s f).1 f = ((depthSetFunc s f).1, [])) ∧
    (∀ m, depthSetMask (depthSetMask s m).1 m = ((depthSetMask s m).1, [])) ∧
    (∀ f r m, stencilSetFunc (stencilSetFunc s f r m).1 f r m =
      ((stencilSetFunc s f r m).1, [])) ∧
    (∀ f zf zp, stencilSetOp (stencilSetOp s f zf zp).1 f zf zp =
      ((stencilSetOp s f zf zp).1, [])) ∧
    (∀ m, stencilSetMask (stencilSetMask s m).1 m = ((stencilSetMask s m).1, [])) ∧
    (∀ b e sf df ea sfa dfa c al pm,
      setBlending (setBlending s b e sf df ea sfa dfa c al pm).1 b e sf df ea sfa dfa c al pm =
        ((setBlending s b e sf df ea sfa dfa c al pm).1, [])) ∧
    (∀ id, assocLookup s.enabledCapabilities id ≠ some true →
      s.enable id = ({ s with enabledCapabilities := assocSet s.enabledCapabilities id true },
        [.enable id])) ∧
    (∀ id, assocLookup s.enabledCapabilities id ≠ some false →
      s.disable id = ({ s with enabledCapabilities := assocSet s.enabledCapabilities id false },
        [.disable id])) ∧
    (∀ p, s.currentProgram ≠ some p →
      s.useProgram p = (true, { s with currentProgram := some p }, [.useProgram p])) ∧
    (∀ t fb, assocLookup s.currentBoundFramebuffers t ≠ some fb →
      (s.bindFramebuffer t fb).1 = true ∧
      (s.bindFramebuffer t fb).2.2 = [.bindFramebuffer t fb] ∧
      assocLookup (s.bindFramebuffer t fb).2.1.currentBoundFramebuffers t = some fb) ∧
    (∀ b, s.currentFlipSided ≠ some b →
      setFlipSided s b = ({ s with currentFlipSided := some b }, [.frontFace b])) ∧
    (∀ f, s.currentDepthFunc ≠ some f →
      depthSetFunc s f = ({ s with currentDepthFunc := some f }, [.depthFunc f])) ∧
    (∀ m, s.currentDepthMask ≠ some m → ¬s.depthLocked →
      depthSetMask s m = ({ s with currentDepthMask := some m }, [.depthMask m])) ∧
    (∀ f r m, (s.currentStencilFunc ≠ some f ∨ s.currentStencilRef ≠ some r ∨
        s.currentStencilFuncMask ≠ some m) →
      stencilSetFunc s f r m =
        ({ s with
            currentStencilFunc := some f
            currentStencilRef := some r
            currentStencilFuncMask := some m }, [.stencilFunc f r m])) ∧
    (∀ f zf zp, (s.currentStencilFail ≠ some f ∨ s.currentStencilZFail ≠ some zf ∨
        s.currentStencilZPass ≠ some zp) →
      stencilSetOp s f zf zp =
        ({ s with
            currentStencilFail := some f
            currentStencilZFail := some zf
            currentStencilZPass := some zp }, [.stencilOp f zf zp])) ∧
    (∀ m, s.currentStencilMask ≠ some m → ¬s.stencilLocked →
      stencilSetMask s m = ({ s with currentStencilMask := some m }, [.stencilMask m])) := by
  exact ⟨enable_idem s, disable_idem s, useProgram_idem s, bindFramebuffer_idem s,
    setFlipSided_idem s, setCullFace_idem s, depthSetFunc_idem s, depthSetMask_idem s,
    stencilSetFunc_idem s, stencilSetOp_idem s, stencilSetMask_idem s, setBlending_idem s,
    enable_change s, disable_change s, useProgram_change s, bindFramebuffer_change s,
    setFlipSided_change s, depthSetFunc_change s, depthSetMask_change s,
    stencilSetFunc_change s, stencilSetOp_change s, stencilSetMask_change s⟩

/-- Witness for C2 (amended): on the fresh tracker, `useProgram 5` (a value
different from the `null` snapshot) issues exactly one call and records the
program, and repeating `enable DEPTH_TEST` issues nothing the second
time. -/
theorem C2_state_setters_witness :
    GLStateTracker.raw.useProgram 5 =
      (true, { GLStateTracker.raw with currentProgram := some 5 }, [.useProgram 5]) ∧
    (GLStateTracker.raw.enable .depthTest).1.enable .depthTest =
      ((GLStateTracker.raw.enable .depthTest).1, []) := by
  obtain ⟨h1, -, -, -, -, -, -, -, -, -, -, -, -, -, h15, -, -, -, -, -, -, -⟩ :=
    C2_state_setters GLStateTracker.raw
  exact ⟨h15 5 (by decide), h1 .depthTest⟩

theorem jsRound_intCast (n : Int) : jsRound (n : Rat) = n := by
  unfold jsRound
  rw [add_comm, Int.floor_add_int]
  norm_num

/-- C8 counterexample: with pixel ratio 3/2, `setViewport(1,1,1,1)` makes
the active viewport `round(1.5) = 2` per component, but after binding and
unbinding a render target `setRenderTarget(null)` recomputes it as
`floor(1.5) = 1` per component — the previously active viewport is not
restored exactly. -/
theorem C8_counterexample :
    (setViewport demoViewportState 1 1 1 1).stateViewport = ⟨2, 2, 2, 2⟩ ∧
    (setRenderTarget (setRenderTarget (setViewport demoViewportState 1 1 1 1)
        (some demoTarget)) none).stateViewport = ⟨1, 1, 1, 1⟩ ∧
    (setRenderTarget (setRenderTarget (setViewport demoViewportState 1 1 1 1)
        (some demoTarget)) none).stateViewport ≠
      (setViewport demoViewportState 1 1 1 1).stateViewport := by
  refine ⟨?_, ?_, ?_⟩ <;>
    simp [demoViewportState, demoTarget, setViewport, setRenderTarget, stateViewportSet,
      stateScissorSet, stateSetScissorTest, Vector4Q.multiplyScalar, Vector4Q.round,
      Vector4Q.floorV, jsRound, Vector4Q.mk.injEq] <;>
    norm_num

/-- C8 (amended): for a viewport/scissor configuration established via
`setViewport` / `setScissor` / `setScissorTest` in which every coordinate
scaled by the pixel ratio is an integer (for instance an integer pixel
ratio with integer coordinates), binding a render target and then
`setRenderTarget(null)` restores the active viewport, scissor rectangle
and scissor-test flag exactly; in general the unbind recomputes
`floor(coordinate * pixelRatio)` where `setViewport` had stored
`round(coordinate * pixelRatio)`, so the restore is exact only up to that
rounding difference.  The frame-buffer state set by `setRenderTarget(null)`
is that of the default framebuffer (`null` binding, no current render
target). -/
theorem C8_setRenderTarget_restore (s : RendererViewportState)
    (x y w h sx sy sw sh : Rat) (st : Bool) (rt : RenderTarget)
    (hint : ∀ c ∈ [x, y, w, h, sx, sy, sw, sh], ∃ n : Int, c * s.pixelRatio = (n : Rat)) :
    (setRenderTarget (setRenderTarget (applyViewportConfig s x y w h sx sy sw sh st)
        (some rt)) none).stateViewport =
      (applyViewportConfig s x y w h sx sy sw sh st).stateViewport ∧
    (setRenderTarget (setRenderTarget (applyViewportConfig s x y w h sx sy sw sh st)
        (some rt)) none).stateScissor =
      (applyViewportConfig s x y w h sx sy sw sh st).stateScissor ∧
    (setRenderTarget (setRenderTarget (applyViewportConfig s x y w h sx sy sw sh st)
        (some rt)) none).stateScissorTest =
      (applyViewportConfig s x y w h sx sy sw sh st).stateScissorTest ∧
    (setRenderTarget (setRenderTarget (applyViewportConfig s x y w h sx sy sw sh st)
        (some rt)) none).currentScissorTest = st ∧
    (setRenderTarget (setRenderTarget (applyViewportConfig s x y w h sx sy sw sh st)
        (some rt)) none).boundFramebuffer = some none ∧
    (setRenderTarget (setRenderTarget (applyViewportConfig s x y w h sx sy sw sh st)
        (some rt)) none).currentRenderTarget = none := by
  obtain ⟨nx, hx⟩ := hint x (by simp)
  obtain ⟨ny, hy⟩ := hint y (by simp)
  obtain ⟨nw, hw⟩ := hint w (by simp)
  obtain ⟨nh, hh⟩ := hint h (by simp)
  obtain ⟨nsx, hsx⟩ := hint sx (by simp)
  obtain ⟨nsy, hsy⟩ := hint sy (by simp)
  obtain ⟨nsw, hsw⟩ := hint sw (by simp)
  obtain ⟨nsh, hsh⟩ := hint sh (by simp)
  refine ⟨?_, ?_, ?_, ?_, ?_, ?_⟩ <;>
    simp [applyViewportConfig, setViewport, setScissor, setScissorTest, setRenderTarget,
      stateViewportSet, stateScissorSet, stateSetScissorTest, Vector4Q.multiplyScalar,
      Vector4Q.round, Vector4Q.floorV, Vector4Q.mk.injEq, hx, hy, hw, hh, hsx, hsy, hsw, hsh,
      jsRound_intCast, Int.floor_intCast]

/-- Witness for C8 (amended): pixel ratio 1 with viewport and scissor
`(0,0,800,600)` — unbinding restores the active viewport and scissor
exactly and rebinds the default framebuffer. -/
theorem C8_setRenderTarget_restore_witness :
    (setRenderTarget (setRenderTarget
        (applyViewportConfig demoViewportState1 0 0 800 600 0 0 800 600 true)
        (some demoTarget)) none).stateViewport =
      (applyViewportConfig demoViewportState1 0 0 800 600 0 0 800 600 true).stateViewport ∧
    (setRenderTarget (setRenderTarget
        (applyViewportConfig demoViewportState1 0 0 800 600 0 0 800 600 true)
        (some demoTarget)) none).boundFramebuffer = some none := by
  have h := C8_setRenderTarget_restore demoViewportState1 0 0 800 600 0 0 800 600 true
    demoTarget (by
      intro c hc
      simp only [List.mem_cons, List.not_mem_nil, or_false] at hc
      rcases hc with rfl | rfl | rfl | rfl | rfl | rfl | rfl | rfl
      exacts [⟨0, by norm_num [demoViewportState1]⟩, ⟨0, by norm_num [demoViewportState1]⟩,
        ⟨800, by norm_num [demoViewportState1]⟩, ⟨600, by norm_num [demoViewportState1]⟩,
        ⟨0, by norm_num [demoViewportState1]⟩, ⟨0, by norm_num [demoViewportState1]⟩,
        ⟨800, by norm_num [demoViewportState1]⟩, ⟨600, by norm_num [demoViewportState1]⟩])
  exact ⟨h.1, h.2.2.2.2.1⟩

theorem bumpFirst_none_iff (k : Nat) (l : List WebGLProgramRec) :
    bumpFirst k l = none ↔ ∀ p ∈ l, p.cacheKey ≠ k := by
  induction l with
  | nil => simp [bumpFirst]
  | cons e rest ih =>
    by_cases he : e.cacheKey = k
    · simp [bumpFirst, he]
    · simp only [bumpFirst, if_neg he]
      cases hrec : bumpFirst k rest with
      | some pr =>
        obtain ⟨q1, q2⟩ := pr
        constructor
        · intro hc; exact absurd hc (by simp)
        · intro hall
          have hnone : bumpFirst k rest = none := by
            rw [ih]; intro p hp; exact hall p (List.mem_cons_of_mem _ hp)
          rw [hnone] at hrec
          exact absurd hrec (by simp)
      | none =>
        constructor
        · intro _ p hp
          rcases List.mem_cons.1 hp with rfl | hp2
          · exact he
          · exact (ih.1 hrec) p hp2
        · intro _; rfl

theorem bumpFirst_some_maps (k : Nat) :
    ∀ (l : List WebGLProgramRec) (q : WebGLProgramRec) (l' : List WebGLProgramRec),
      bumpFirst k l = some (q, l') →
      l'.map (·.cacheKey) = l.map (·.cacheKey) ∧ l'.map (·.progId) = l.map (·.progId) ∧
      q ∈ l' ∧ q.cacheKey = k ∧
      (∃ q₀ ∈ l, q₀.cacheKey = k ∧ q = { q₀ with usedTimes := q₀.usedTimes + 1 }) ∧
      (∀ p' ∈ l', p' = q ∨ p' ∈ l) := by
  intro l
  induction l with
  | nil => intro q l' h; simp [bumpFirst] at h
  | cons e rest ih =>
    intro q l' h
    by_cases he : e.cacheKey = k
    · simp only [bumpFirst, if_pos he] at h
      injection h with h
      injection h with h1 h2
      subst h1
      subst h2
      refine ⟨by simp [he], by simp, by simp, by simp [he], ⟨e, by simp, he, rfl⟩, ?_⟩
      intro p' hp'
      rcases List.mem_cons.1 hp' with h1 | h1
      · exact Or.inl h1
      · exact Or.inr (List.mem_cons_of_mem _ h1)
    · simp only [bumpFirst, if_neg he] at h
      cases hrec : bumpFirst k rest with
      | none => rw [hrec] at h; simp at h
      | some pr =>
        obtain ⟨q', rest'⟩ := pr
        rw [hrec] at h
        injection h with h
        injection h with h1 h2
        subst h1
        subst h2
        obtain ⟨hm1, hm2, hmem, hkey, ⟨q₀, hq₀, hq₀k, hq₀e⟩, htrans⟩ := ih _ rest' hrec
        refine ⟨by simp [hm1], by simp [hm2], List.mem_cons_of_mem _ hmem, hkey,
          ⟨q₀, List.mem_cons_of_mem _ hq₀, hq₀k, hq₀e⟩, ?_⟩
        intro p' hp'
        rcases List.mem_cons.1 hp' with h1 | h1
        · exact Or.inr (by simp [h1])
        · rcases htrans p' h1 with h2 | h2
          · exact Or.inl h2
          · exact Or.inr (List.mem_cons_of_mem _ h2)

theorem bumpFirst_of_mem (k : Nat) :
    ∀ (l : List WebGLProgramRec) (p : WebGLProgramRec),
      (l.map (·.cacheKey)).Nodup → p ∈ l → p.cacheKey = k →
      ∃ l', bumpFirst k l = some ({ p with usedTimes := p.usedTimes + 1 }, l') := by
  intro l
  induction l with
  | nil => intro p _ hp; simp at hp
  | cons e rest ih =>
    intro p hnodup hp hk
    by_cases he : e.cacheKey = k
    · have hpe : p = e := by
        rcases List.mem_cons.1 hp with h1 | h1
        · exact h1
        · exfalso
          have : e.cacheKey ∉ rest.map (·.cacheKey) := by
            simp only [List.map_cons, List.nodup_cons] at hnodup
            exact hnodup.1
          exact this (by rw [he, ← hk]; exact List.mem_map_of_mem _ h1)
      subst hpe
      exact ⟨{ p with usedTimes := p.usedTimes + 1 } :: rest, by simp [bumpFirst, he]⟩
    · have hprest : p ∈ rest := by
        rcases List.mem_cons.1 hp with h1 | h1
        · exact absurd (h1 ▸ hk) he
        · exact h1
      obtain ⟨l', hl'⟩ := ih p (by simp only [List.map_cons, List.nodup_cons] at hnodup; exact hnodup.2)
        hprest hk
      exact ⟨e :: l', by simp [bumpFirst, he, hl']⟩

theorem swapRemove_perm : ∀ (l : List WebGLProgramRec) (i : Nat), i < l.length →
    (swapRemove l i).Perm (l.eraseIdx i)
  | [], _, h => by simp at h
  | [_], 0, _ => by simp [swapRemove]
  | [_], _+1, h => by simp at h
  | a :: b :: t, 0, _ => by
    simp only [swapRemove, List.getLast?_cons_cons, List.set_cons_zero, List.dropLast_cons₂,
      List.eraseIdx_cons_zero]
    rw [List.getLast?_eq_getLast (b :: t) (by simp)]
    simp only [Option.getD_some]
    have h2 : (b :: t).dropLast ++ [(b :: t).getLast (by simp)] = b :: t :=
      List.dropLast_append_getLast (by simp)
    have h1 : ((b :: t).getLast (by simp) :: (b :: t).dropLast).Perm
        ((b :: t).dropLast ++ [(b :: t).getLast (by simp)]) :=
      (List.perm_append_singleton _ _).symm
    conv_rhs => rw [← h2]
    exact h1
  | a :: b :: t, i+1, h => by
    simp only [swapRemove, List.getLast?_cons_cons, List.set_cons_succ,
      List.eraseIdx_cons_succ]
    rw [List.dropLast_cons_of_ne_nil (by
      have hlen : ((b :: t).set i ((b :: t).getLast?.getD ⟨0, 0, 0⟩)).length = t.length + 1 := by
        simp
      intro hnil
      rw [hnil] at hlen
      simp at hlen)]
    exact ((swapRemove_perm (b :: t) i (by simpa using h))).cons a

theorem nodup_getElem_not_mem_eraseIdx :
    ∀ (l : List WebGLProgramRec) (i : Nat) (h : i < l.length), l.Nodup →
      l[i] ∉ l.eraseIdx i
  | [], _, h, _ => by simp at h
  | a :: t, 0, _, hnodup => by
    simp only [List.eraseIdx_cons_zero, List.getElem_cons_zero]
    exact (List.nodup_cons.1 hnodup).1
  | a :: t, i+1, h, hnodup => by
    simp only [List.eraseIdx_cons_succ, List.getElem_cons_succ, List.mem_cons]
    rintro (h1 | h1)
    · exact (List.nodup_cons.1 hnodup).1 (h1 ▸ List.getElem_mem _)
    · exact nodup_getElem_not_mem_eraseIdx t i (by simpa using h) (List.nodup_cons.1 hnodup).2 h1

theorem find?_progId_of_mem :
    ∀ (l : List WebGLProgramRec) (p : WebGLProgramRec),
      (l.map (·.progId)).Nodup → p ∈ l →
      l.find? (fun q => q.progId = p.progId) = some p := by
  intro l
  induction l with
  | nil => intro p _ hp; simp at hp
  | cons e rest ih =>
    intro p hnodup hp
    by_cases he : e.progId = p.progId
    · have hpe : p = e := by
        rcases List.mem_cons.1 hp with h1 | h1
        · exact h1
        · exfalso
          have hmem : e.progId ∉ rest.map (·.progId) := by
            simp only [List.map_cons, List.nodup_cons] at hnodup
            exact hnodup.1
          exact hmem (he ▸ List.mem_map_of_mem _ h1)
      subst hpe
      exact List.find?_cons_of_pos _ (by simp)
    · have hprest : p ∈ rest := by
        rcases List.mem_cons.1 hp with h1 | h1
        · exact absurd (by rw [h1]) he
        · exact h1
      rw [List.find?_cons_of_neg _ (by simpa using he)]
      exact ih p (by simp only [List.map_cons, List.nodup_cons] at hnodup; exact hnodup.2) hprest

theorem findIdx_progId (l : List WebGLProgramRec) (p : WebGLProgramRec)
    (hnodup : (l.map (·.progId)).Nodup) (hp : p ∈ l) :
    ∃ hi : l.findIdx (fun q => q.progId = p.progId) < l.length,
      l.get ⟨l.findIdx (fun q => q.progId = p.progId), hi⟩ = p := by
  have hex : ∃ x ∈ l, (fun q => decide (q.progId = p.progId)) x = true := ⟨p, hp, by simp⟩
  have hi := List.findIdx_lt_length_of_exists hex
  refine ⟨hi, ?_⟩
  have hpred := List.findIdx_getElem (w := hi)
  simp only [List.get_eq_getElem]
  exact List.inj_on_of_nodup_map hnodup (List.getElem_mem _) hp (by simpa using hpred)

theorem releaseProgram_dec (s : ProgramCacheState) (p : WebGLProgramRec)
    (hids : (s.programs.map (·.progId)).Nodup) (hp : p ∈ s.programs)
    (h2 : 2 ≤ p.usedTimes) :
    (releaseProgram s p.progId).programs =
      s.programs.map (fun q =>
        if q.progId = p.progId then { q with usedTimes := q.usedTimes - 1 } else q) ∧
    { p with usedTimes := p.usedTimes - 1 } ∈ (releaseProgram s p.progId).programs ∧
    (∀ q ∈ (releaseProgram s p.progId).programs, q.progId ≠ p.progId → q ∈ s.programs) ∧
    (releaseProgram s p.progId).destroyed = s.destroyed := by
  have hfind := find?_progId_of_mem s.programs p hids hp
  have hne : ¬p.usedTimes = 1 := by omega
  refine ⟨by simp [releaseProgram, hfind, hne], ?_, ?_, by simp [releaseProgram, hfind, hne]⟩
  · simp only [releaseProgram, hfind, hne, if_false, ite_false]
    exact List.mem_map.2 ⟨p, hp, by simp⟩
  · intro q hq hqid
    simp only [releaseProgram, hfind, hne, if_false, ite_false] at hq
    obtain ⟨q₀, hq₀, hq₀e⟩ := List.mem_map.1 hq
    by_cases h : q₀.progId = p.progId
    · rw [if_pos h] at hq₀e
      exact absurd (by rw [← hq₀e]; simpa using h) hqid
    · rw [if_neg h] at hq₀e
      exact hq₀e ▸ hq₀

theorem releaseProgram_del_main (s : ProgramCacheState) (p : WebGLProgramRec)
    (hids : (s.programs.map (·.progId)).Nodup) (hp : p ∈ s.programs)
    (h1 : p.usedTimes = 1) :
    ((releaseProgram s p.progId).programs.Perm
      (s.programs.eraseIdx (s.programs.findIdx (fun q => q.progId = p.progId)))) ∧
    p.progId ∉ (releaseProgram s p.progId).programs.map (·.progId) ∧
    (∀ q ∈ (releaseProgram s p.progId).programs, q ∈ s.programs) ∧
    (releaseProgram s p.progId).destroyed = s.destroyed ++ [p.progId] := by
  have hfind := find?_progId_of_mem s.programs p hids hp
  obtain ⟨hi, hgi⟩ := findIdx_progId s.programs p hids hp
  have hprogs : (releaseProgram s p.progId).programs =
      swapRemove s.programs (s.programs.findIdx (fun q => q.progId = p.progId)) := by
    simp [releaseProgram, hfind, h1]
  have hperm : (releaseProgram s p.progId).programs.Perm
      (s.programs.eraseIdx (s.programs.findIdx (fun q => q.progId = p.progId))) := by
    rw [hprogs]
    exact swapRemove_perm _ _ hi
  have hlnodup : s.programs.Nodup := List.Nodup.of_map _ hids
  have hnotmem : p ∉ s.programs.eraseIdx (s.programs.findIdx (fun q => q.progId = p.progId)) := by
    have hni := nodup_getElem_not_mem_eraseIdx s.programs
      (s.programs.findIdx (fun q => q.progId = p.progId)) hi hlnodup
    simp only [List.get_eq_getElem] at hgi
    rwa [hgi] at hni
  refine ⟨hperm, ?_, ?_, by simp [releaseProgram, hfind, h1]⟩
  · intro hmem
    obtain ⟨q, hq, hqid⟩ := List.mem_map.1 hmem
    have hq' : q ∈ s.programs.eraseIdx (s.programs.findIdx (fun r => r.progId = p.progId)) :=
      hperm.mem_iff.1 hq
    have hqs : q ∈ s.programs := (List.eraseIdx_sublist _ _).mem hq'
    have : q = p := List.inj_on_of_nodup_map hids hqs hp hqid
    exact hnotmem (this ▸ hq')
  · intro q hq
    exact (List.eraseIdx_sublist _ _).mem (hperm.mem_iff.1 hq)

theorem nodup_append_singleton {α : Type} (l : List α) (a : α) (h : l.Nodup) (ha : a ∉ l) :
    (l ++ [a]).Nodup := by
  induction l with
  | nil => simp
  | cons e rest ih =>
    simp only [List.cons_append, List.nodup_cons] at *
    refine ⟨?_, ih h.2 (fun hm => ha (List.mem_cons_of_mem _ hm))⟩
    intro hmem
    rcases List.mem_append.1 hmem with h1 | h1
    · exact h.1 h1
    · simp only [List.mem_singleton] at h1
      exact ha (by rw [← h1]; exact List.mem_cons_self _ _)

theorem progStep_inv (s : ProgramCacheState) (op : ProgOp) (h : ProgInv s) :
    ProgInv (progStep s op) := by
  obtain ⟨hkeys, hids, hmem, hdest, hdb⟩ := h
  cases op with
  | acquire k =>
    show ProgInv (acquireProgram s k).2
    cases hbump : bumpFirst k s.programs with
    | none =>
      have hknot := (bumpFirst_none_iff k s.programs).1 hbump
      simp only [acquireProgram, hbump]
      refine ⟨?_, ?_, ?_, hdest, ?_⟩
      · simp only [List.map_append, List.map_cons, List.map_nil]
        apply nodup_append_singleton _ _ hkeys
        intro hk
        obtain ⟨p, hp, hpk⟩ := List.mem_map.1 hk
        exact hknot p hp hpk
      · simp only [List.map_append, List.map_cons, List.map_nil]
        apply nodup_append_singleton _ _ hids
        intro hk
        obtain ⟨p, hp, hpk⟩ := List.mem_map.1 hk
        exact absurd (hpk ▸ (hmem p hp).1) (by omega)
      · intro p hp
        dsimp only at hp ⊢
        rcases List.mem_append.1 hp with h1 | h1
        · obtain ⟨hb, hu, hd⟩ := hmem p h1
          exact ⟨by omega, hu, hd⟩
        · simp only [List.mem_singleton] at h1
          subst h1
          refine ⟨by dsimp only; omega, by dsimp only; omega, ?_⟩
          intro hd
          exact absurd (hdb _ hd) (by dsimp only at hd ⊢; omega)
      · intro d hd
        dsimp only at hd ⊢
        exact Nat.lt_succ_of_lt (hdb d hd)
    | some pr =>
      obtain ⟨q, l'⟩ := pr
      obtain ⟨hm1, hm2, hqmem, hqk, ⟨q₀, hq₀, hq₀k, hq₀e⟩, htrans⟩ :=
        bumpFirst_some_maps k s.programs q l' hbump
      simp only [acquireProgram, hbump]
      refine ⟨by rw [hm1]; exact hkeys, by rw [hm2]; exact hids, ?_, hdest, hdb⟩
      intro p hp
      dsimp only at hp ⊢
      rcases htrans p hp with h1 | h1
      · subst h1
        obtain ⟨hb, hu, hd⟩ := hmem q₀ hq₀
        rw [hq₀e]
        refine ⟨by dsimp only; omega, by dsimp only; omega, by dsimp only; exact hd⟩
      · exact hmem p h1
  | release pid =>
    show ProgInv (releaseProgram s pid)
    cases hfind : s.programs.find? (fun p => p.progId = pid) with
    | none =>
      simp only [releaseProgram, hfind]
      exact ⟨hkeys, hids, hmem, hdest, hdb⟩
    | some p =>
      have hp : p ∈ s.programs := List.mem_of_find?_eq_some hfind
      have hpid : p.progId = pid := by simpa using List.find?_some hfind
      subst hpid
      by_cases h1 : p.usedTimes = 1
      · obtain ⟨hperm, hnot, hsub, hdest'⟩ := releaseProgram_del_main s p hids hp h1
        have hkeys' : ((releaseProgram s p.progId).programs.map (·.cacheKey)).Nodup := by
          rw [List.Perm.nodup_iff (hperm.map _)]
          exact ((List.eraseIdx_sublist _ _).map _).nodup hkeys
        have hids' : ((releaseProgram s p.progId).programs.map (·.progId)).Nodup := by
          rw [List.Perm.nodup_iff (hperm.map _)]
          exact ((List.eraseIdx_sublist _ _).map _).nodup hids
        refine ⟨hkeys', hids', ?_, ?_, ?_⟩
        · intro q hq
          obtain ⟨hb, hu, hd⟩ := hmem q (hsub q hq)
          refine ⟨by simp [releaseProgram, hfind, h1]; omega, hu, ?_⟩
          rw [hdest']
          intro hmemd
          rcases List.mem_append.1 hmemd with h2 | h2
          · exact hd h2
          · simp only [List.mem_singleton] at h2
            have hqm := List.mem_map_of_mem (fun x : WebGLProgramRec => x.progId) hq
            dsimp only at hqm
            rw [h2] at hqm
            exact hnot hqm
        · rw [hdest']
          exact nodup_append_singleton _ _ hdest (hmem p hp).2.2
        · rw [hdest']
          intro d hd
          rcases List.mem_append.1 hd with h2 | h2
          · simpa [releaseProgram, hfind, h1] using hdb d h2
          · simp only [List.mem_singleton] at h2
            subst h2
            simpa [releaseProgram, hfind, h1] using (hmem p hp).1
      · have h2 : 2 ≤ p.usedTimes := by
          have := (hmem p hp).2.1
          omega
        obtain ⟨hprogs, hmemdec, hother, hdest'⟩ := releaseProgram_dec s p hids hp h2
        have hcnt : (releaseProgram s p.progId).programIdCount = s.programIdCount := by
          simp [releaseProgram, hfind, h1]
        have hdl : (releaseProgram s p.progId).destroyed = s.destroyed := hdest'
        refine ⟨?_, ?_, ?_, by rw [hdl]; exact hdest, by rw [hdl, hcnt]; exact hdb⟩
        · rw [hprogs, List.map_map]
          have : (fun q : WebGLProgramRec => q.cacheKey) ∘
              (fun q => if q.progId = p.progId then { q with usedTimes := q.usedTimes - 1 } else q) =
              (fun q : WebGLProgramRec => q.cacheKey) := by
            funext q
            by_cases hq : q.progId = p.progId <;> simp [hq]
          rw [this]
          exact hkeys
        · rw [hprogs, List.map_map]
          have : (fun q : WebGLProgramRec => q.progId) ∘
              (fun q => if q.progId = p.progId then { q with usedTimes := q.usedTimes - 1 } else q) =
              (fun q : WebGLProgramRec => q.progId) := by
            funext q
            by_cases hq : q.progId = p.progId <;> simp [hq]
          rw [this]
          exact hids
        · intro q' hq'
          rw [hprogs] at hq'
          obtain ⟨q, hq, rfl⟩ := List.mem_map.1 hq'
          rw [hcnt, hdl]
          by_cases hqp : q.progId = p.progId
          · have hqeq : q = p := List.inj_on_of_nodup_map hids hq hp hqp
            subst hqeq
            obtain ⟨hb, hu, hd⟩ := hmem q hq
            simp only [hqp, if_true, ite_true]
            refine ⟨by omega, by omega, hd⟩
          · simp only [hqp, if_false, ite_false]
            exact hmem q hq

theorem runProgOps_inv (ops : List ProgOp) : ProgInv (runProgOps ops) := by
  have hinit : ProgInv ProgramCacheState.init := by
    refine ⟨by simp [ProgramCacheState.init], by simp [ProgramCacheState.init],
      ?_, by simp [ProgramCacheState.init], ?_⟩
    · intro p hp
      simp [ProgramCacheState.init] at hp
    · intro d hd
      simp [ProgramCacheState.init] at hd
  suffices hstep : ∀ (l : List ProgOp) (s : ProgramCacheState), ProgInv s →
      ProgInv (l.foldl progStep s) by
    exact hstep ops ProgramCacheState.init hinit
  intro l
  induction l with
  | nil => intro s hs; exact hs
  | cons op rest ih =>
    intro s hs
    exact ih _ (progStep_inv s op hs)

theorem runProgOps_replicate_aux (k m : Nat) :
    ∀ n, (List.replicate n (ProgOp.acquire k)).foldl progStep ⟨[⟨0, k, m⟩], 1, []⟩ =
      ⟨[⟨0, k, m + n⟩], 1, []⟩
  | 0 => by simp
  | n + 1 => by
    simp only [List.replicate, List.foldl_cons]
    have hstep : progStep ⟨[⟨0, k, m⟩], 1, []⟩ (.acquire k) = ⟨[⟨0, k, m + 1⟩], 1, []⟩ := by
      simp [progStep, acquireProgram, bumpFirst]
    rw [hstep, runProgOps_replicate_aux k (m + 1) n]
    have harith : m + 1 + n = m + (n + 1) := by omega
    rw [harith]

theorem runProgOps_replicate (k n : Nat) (hn : 1 ≤ n) :
    runProgOps (List.replicate n (.acquire k)) = ⟨[⟨0, k, n⟩], 1, []⟩ := by
  obtain ⟨m, rfl⟩ : ∃ m, n = m + 1 := ⟨n - 1, by omega⟩
  simp only [List.replicate, runProgOps, List.foldl_cons]
  have hstep : progStep ProgramCacheState.init (.acquire k) = ⟨[⟨0, k, 1⟩], 1, []⟩ := by
    simp [progStep, acquireProgram, bumpFirst, ProgramCacheState.init]
  rw [hstep, runProgOps_replicate_aux k 1 m]
  have harith : 1 + m = m + 1 := by omega
  rw [harith]

/-- C1: over every sequence of acquire/release calls on the program cache,
at most one program exists per distinct cache key; acquiring a key that is
cached returns the very same program instance with `usedTimes` incremented
and creates nothing; acquiring an uncached key creates a fresh program
whose `usedTimes` starts at 1; n acquires of one key from an empty cache
leave exactly one program with `usedTimes = n`; releasing a program with
`usedTimes ≥ 2` only decrements it and destroys nothing, while releasing a
program with `usedTimes = 1` removes it from the cache and destroys its GL
program; and no program id is ever destroyed twice. -/
theorem C1_program_cache :
    (∀ ops, ((runProgOps ops).programs.map (·.cacheKey)).Nodup) ∧
    (∀ ops k p, p ∈ (runProgOps ops).programs → p.cacheKey = k →
      (acquireProgram (runProgOps ops) k).1.progId = p.progId ∧
      (acquireProgram (runProgOps ops) k).1.usedTimes = p.usedTimes + 1 ∧
      (acquireProgram (runProgOps ops) k).2.programs.map (·.progId) =
        (runProgOps ops).programs.map (·.progId)) ∧
    (∀ ops k, (∀ p ∈ (runProgOps ops).programs, p.cacheKey ≠ k) →
      (acquireProgram (runProgOps ops) k).1.usedTimes = 1 ∧
      (acquireProgram (runProgOps ops) k).1.cacheKey = k) ∧
    (∀ k n, 1 ≤ n →
      runProgOps (List.replicate n (.acquire k)) = ⟨[⟨0, k, n⟩], 1, []⟩) ∧
    (∀ ops p, p ∈ (runProgOps ops).programs → 2 ≤ p.usedTimes →
      { p with usedTimes := p.usedTimes - 1 } ∈
        (releaseProgram (runProgOps ops) p.progId).programs ∧
      (releaseProgram (runProgOps ops) p.progId).destroyed = (runProgOps ops).destroyed) ∧
    (∀ ops p, p ∈ (runProgOps ops).programs → p.usedTimes = 1 →
      p.progId ∉ (releaseProgram (runProgOps ops) p.progId).programs.map (·.progId) ∧
      (releaseProgram (runProgOps ops) p.progId).destroyed =
        (runProgOps ops).destroyed ++ [p.progId]) ∧
    (∀ ops, (runProgOps ops).destroyed.Nodup) := by
  refine ⟨?_, ?_, ?_, runProgOps_replicate, ?_, ?_, ?_⟩
  · intro ops
    exact (runProgOps_inv ops).1
  · intro ops k p hp hk
    obtain ⟨l', hsome⟩ := bumpFirst_of_mem k (runProgOps ops).programs p
      (runProgOps_inv ops).1 hp hk
    obtain ⟨hm1, hm2, _, _, _, _⟩ := bumpFirst_some_maps k (runProgOps ops).programs _ l' hsome
    simp only [acquireProgram, hsome]
    refine ⟨trivial, trivial, ?_⟩
    exact hm2
  · intro ops k hnone
    have hb : bumpFirst k (runProgOps ops).programs = none :=
      (bumpFirst_none_iff k (runProgOps ops).programs).2 hnone
    simp only [acquireProgram, hb]
    exact ⟨trivial, trivial⟩
  · intro ops p hp h2
    obtain ⟨_, hmemdec, _, hdest⟩ :=
      releaseProgram_dec (runProgOps ops) p (runProgOps_inv ops).2.1 hp h2
    exact ⟨hmemdec, hdest⟩
  · intro ops p hp h1
    obtain ⟨_, hnot, _, hdest⟩ :=
      releaseProgram_del_main (runProgOps ops) p (runProgOps_inv ops).2.1 hp h1
    exact ⟨hnot, hdest⟩
  · intro ops
    exact (runProgOps_inv ops).2.2.2.1

/-- Witness for C1: three acquires of key 7 leave one program with
`usedTimes = 3`; in a cache holding that key once, releasing the program
destroys id 0 exactly once. -/
theorem C1_program_cache_witness :
    runProgOps (List.replicate 3 (.acquire 7)) = ⟨[⟨0, 7, 3⟩], 1, []⟩ ∧
    (releaseProgram (runProgOps [.acquire 7]) 0).destroyed = [0] := by
  have h := C1_program_cache
  refine ⟨h.2.2.2.1 7 3 (by decide), ?_⟩
  have h6 := h.2.2.2.2.2.1 [.acquire 7] ⟨0, 7, 1⟩ (by decide) (by decide)
  have hid : (⟨0, 7, 1⟩ : WebGLProgramRec).progId = 0 := rfl
  rw [hid] at h6
  rw [h6.2]
  decide

theorem assocLookup_none_iff {K V : Type} [DecidableEq K] (l : List (K × V)) (k : K) :
    assocLookup l k = none ↔ k ∉ l.map Prod.fst := by
  induction l with
  | nil => simp [assocLookup]
  | cons e rest ih =>
    by_cases h : e.1 = k
    · simp [assocLookup_cons, h]
    · simp [assocLookup_cons, h, ih, Ne.symm h]

theorem assocLookup_mem {K V : Type} [DecidableEq K] :
    ∀ (l : List (K × V)) (k : K) (v : V), assocLookup l k = some v → (k, v) ∈ l := by
  intro l
  induction l with
  | nil => intro k v h; simp [assocLookup] at h
  | cons e rest ih =>
    intro k v h
    by_cases he : e.1 = k
    · rw [assocLookup_cons, if_pos he] at h
      obtain rfl := Option.some.inj h
      subst he
      exact List.mem_cons_self e rest
    · rw [assocLookup_cons, if_neg he] at h
      exact List.mem_cons_of_mem _ (ih k v h)

theorem mem_assocLookup {K V : Type} [DecidableEq K] :
    ∀ (l : List (K × V)) (k : K) (v : V), (l.map Prod.fst).Nodup → (k, v) ∈ l →
      assocLookup l k = some v := by
  intro l
  induction l with
  | nil => intro k v _ h; simp at h
  | cons e rest ih =>
    intro k v hnodup hm
    rcases List.mem_cons.1 hm with h1 | h1
    · rw [← h1, assocLookup_cons, if_pos rfl]
    · by_cases he : e.1 = k
      · exfalso
        simp only [List.map_cons, List.nodup_cons] at hnodup
        exact hnodup.1 (he ▸ (List.mem_map_of_mem Prod.fst h1 : (k, v).1 ∈ _))
      · rw [assocLookup_cons, if_neg he]
        exact ih k v (by simp only [List.map_cons, List.nodup_cons] at hnodup; exact hnodup.2) h1

theorem assocSet_lookup_self {K V : Type} [DecidableEq K] :
    ∀ (l : List (K × V)) (k : K) (v : V), assocLookup l k = some v → assocSet l k v = l := by
  intro l
  induction l with
  | nil => intro k v h; simp [assocLookup] at h
  | cons e rest ih =>
    intro k v h
    by_cases he : e.1 = k
    · rw [assocLookup_cons, if_pos he] at h
      obtain rfl := Option.some.inj h
      subst he
      simp [assocSet]
    · rw [assocLookup_cons, if_neg he] at h
      simp [assocSet, he, ih k v h]

theorem assocSet_of_none {K V : Type} [DecidableEq K] :
    ∀ (l : List (K × V)) (k : K) (v : V), assocLookup l k = none →
      assocSet l k v = l ++ [(k, v)] := by
  intro l
  induction l with
  | nil => intro k v _; simp [assocSet]
  | cons e rest ih =>
    intro k v h
    by_cases he : e.1 = k
    · rw [assocLookup_cons, if_pos he] at h
      simp at h
    · rw [assocLookup_cons, if_neg he] at h
      simp [assocSet, he, ih k v h]

theorem mem_assocSet {K V : Type} [DecidableEq K] :
    ∀ (l : List (K × V)) (k : K) (v : V) (e : K × V), e ∈ assocSet l k v →
      e = (k, v) ∨ e ∈ l := by
  intro l
  induction l with
  | nil => intro k v e he; simp [assocSet] at he; exact Or.inl he
  | cons f rest ih =>
    intro k v e he
    by_cases hf : f.1 = k
    · simp only [assocSet, if_pos hf] at he
      rcases List.mem_cons.1 he with h1 | h1
      · exact Or.inl h1
      · exact Or.inr (List.mem_cons_of_mem _ h1)
    · simp only [assocSet, if_neg hf] at he
      rcases List.mem_cons.1 he with h1 | h1
      · exact Or.inr (h1 ▸ List.mem_cons_self f rest)
      · rcases ih k v e h1 with h2 | h2
        · exact Or.inl h2
        · exact Or.inr (List.mem_cons_of_mem _ h2)

theorem mem_map_fst_assocSet {K V : Type} [DecidableEq K] :
    ∀ (l : List (K × V)) (k : K) (v : V) (a : K),
      a ∈ (assocSet l k v).map Prod.fst ↔ a = k ∨ a ∈ l.map Prod.fst := by
  intro l
  induction l with
  | nil => intro k v a; simp [assocSet]
  | cons f rest ih =>
    intro k v a
    by_cases hf : f.1 = k
    · subst hf
      simp only [assocSet, if_true, eq_self_iff_true, List.map_cons, List.mem_cons, reduceIte]
      tauto
    · simp only [assocSet, if_neg hf, List.map_cons, List.mem_cons, ih]
      tauto

theorem nodup_map_fst_assocSet {K V : Type} [DecidableEq K] :
    ∀ (l : List (K × V)) (k : K) (v : V), (l.map Prod.fst).Nodup →
      ((assocSet l k v).map Prod.fst).Nodup := by
  intro l
  induction l with
  | nil => intro k v _; simp [assocSet]
  | cons f rest ih =>
    intro k v hnd
    simp only [List.map_cons, List.nodup_cons] at hnd
    by_cases hf : f.1 = k
    · simp only [assocSet, if_pos hf, List.map_cons, List.nodup_cons]
      exact ⟨hf ▸ hnd.1, hnd.2⟩
    · simp only [assocSet, if_neg hf, List.map_cons, List.nodup_cons]
      refine ⟨?_, ih k v hnd.2⟩
      rw [mem_map_fst_assocSet]
      rintro (h | h)
      · exact hf h
      · exact hnd.1 h

theorem mem_assocSet_ne {K V : Type} [DecidableEq K] :
    ∀ (l : List (K × V)) (k : K) (v : V) (e : K × V), (l.map Prod.fst).Nodup →
      e ∈ assocSet l k v → e = (k, v) ∨ (e ∈ l ∧ e.1 ≠ k) := by
  intro l
  induction l with
  | nil => intro k v e _ he; simp [assocSet] at he; exact Or.inl he
  | cons f rest ih =>
    intro k v e hnd he
    simp only [List.map_cons, List.nodup_cons] at hnd
    by_cases hf : f.1 = k
    · simp only [assocSet, if_pos hf] at he
      rcases List.mem_cons.1 he with h1 | h1
      · exact Or.inl h1
      · refine Or.inr ⟨List.mem_cons_of_mem _ h1, ?_⟩
        intro hek
        exact hnd.1 (hf ▸ hek ▸ List.mem_map_of_mem Prod.fst h1)
    · simp only [assocSet, if_neg hf] at he
      rcases List.mem_cons.1 he with h1 | h1
      · exact Or.inr ⟨h1 ▸ List.mem_cons_self f rest, h1 ▸ hf⟩
      · rcases ih k v e hnd.2 h1 with h2 | h2
        · exact Or.inl h2
        · exact Or.inr ⟨List.mem_cons_of_mem _ h2.1, h2.2⟩

theorem assocSet_assocSet_self {K V : Type} [DecidableEq K] :
    ∀ (l : List (K × V)) (k : K) (v w : V),
      assocSet (assocSet l k v) k w = assocSet l k w := by
  intro l
  induction l with
  | nil => intro k v w; simp [assocSet]
  | cons f rest ih =>
    intro k v w
    by_cases hf : f.1 = k
    · simp [assocSet, hf]
    · simp [assocSet, hf, ih]

theorem assocErase_sublist {K V : Type} [DecidableEq K] :
    ∀ (l : List (K × V)) (k : K), (assocErase l k).Sublist l := by
  intro l
  induction l with
  | nil => intro k; simp [assocErase]
  | cons f rest ih =>
    intro k
    by_cases hf : f.1 = k
    · simpa [assocErase, hf] using List.sublist_cons_self f rest
    · simpa [assocErase, hf] using List.Sublist.cons₂ f (ih k)

theorem assocLookup_assocErase_self {K V : Type} [DecidableEq K] :
    ∀ (l : List (K × V)) (k : K), (l.map Prod.fst).Nodup →
      assocLookup (assocErase l k) k = none := by
  intro l
  induction l with
  | nil => intro k _; simp [assocErase, assocLookup]
  | cons f rest ih =>
    intro k hnd
    simp only [List.map_cons, List.nodup_cons] at hnd
    by_cases hf : f.1 = k
    · rw [assocErase, if_pos hf, assocLookup_none_iff]
      exact fun hm => hnd.1 (hf ▸ hm)
    · rw [assocErase, if_neg hf, assocLookup_cons, if_neg hf]
      exact ih k hnd.2

theorem assocLookup_assocErase_ne {K V : Type} [DecidableEq K] :
    ∀ (l : List (K × V)) (k k' : K), k' ≠ k →
      assocLookup (assocErase l k) k' = assocLookup l k' := by
  intro l
  induction l with
  | nil => intro k k' _; simp [assocErase]
  | cons f rest ih =>
    intro k k' hne
    by_cases hf : f.1 = k
    · rw [assocErase, if_pos hf, assocLookup_cons, if_neg (by rw [hf]; exact Ne.symm hne)]
    · rw [assocErase, if_neg hf, assocLookup_cons, assocLookup_cons, ih k k' hne]

theorem countP_assocSet_some {K V : Type} [DecidableEq K] (p : K × V → Bool) :
    ∀ (l : List (K × V)) (k : K) (v old : V), assocLookup l k = some old →
      (assocSet l k v).countP p + (if p (k, old) then 1 else 0) =
        l.countP p + (if p (k, v) then 1 else 0) := by
  intro l
  induction l with
  | nil => intro k v old h; simp [assocLookup] at h
  | cons f rest ih =>
    intro k v old h
    by_cases hf : f.1 = k
    · rw [assocLookup_cons, if_pos hf] at h
      obtain rfl := Option.some.inj h
      have hfk : f = (k, f.2) := by rw [← hf]
      rw [assocSet, if_pos hf, List.countP_cons, List.countP_cons, ← hfk]
      omega
    · rw [assocLookup_cons, if_neg hf] at h
      rw [assocSet, if_neg hf, List.countP_cons, List.countP_cons]
      have := ih k v old h
      omega

theorem countP_assocSet_none {K V : Type} [DecidableEq K] (p : K × V → Bool)
    (l : List (K × V)) (k : K) (v : V) (h : assocLookup l k = none) :
    (assocSet l k v).countP p = l.countP p + (if p (k, v) then 1 else 0) := by
  rw [assocSet_of_none l k v h, List.countP_append, List.countP_cons]
  simp [List.countP_nil]

theorem two_le_countP {α : Type} (p : α → Bool) :
    ∀ (l : List α) (a b : α), a ∈ l → b ∈ l → a ≠ b → p a → p b →
      2 ≤ l.countP p := by
  intro l
  induction l with
  | nil => intro a b ha _ _ _ _; simp at ha
  | cons c rest ih =>
    intro a b ha hb hne hpa hpb
    rcases List.mem_cons.1 ha with h1 | h1
    · have hbr : b ∈ rest := by
        rcases List.mem_cons.1 hb with h2 | h2
        · exact absurd (h1.trans h2.symm) hne
        · exact h2
      rw [List.countP_cons, if_pos (h1 ▸ hpa)]
      have : 0 < rest.countP p := List.countP_pos.2 ⟨b, hbr, hpb⟩
      omega
    · rcases List.mem_cons.1 hb with h2 | h2
      · rw [List.countP_cons, if_pos (h2 ▸ hpb)]
        have : 0 < rest.countP p := List.countP_pos.2 ⟨a, h1, hpa⟩
        omega
      · rw [List.countP_cons]
        have := ih a b h1 h2 hne hpa hpb
        omega

theorem nodup_map_fst_assocErase {K V : Type} [DecidableEq K] (l : List (K × V)) (k : K)
    (h : (l.map Prod.fst).Nodup) : ((assocErase l k).map Prod.fst).Nodup :=
  h.sublist ((assocErase_sublist l k).map Prod.fst)

theorem refCount_set_props (src : Nat → Nat) {st st' : TexturesState} {tid : Nat}
    {np : TexProps} (h : st'.props = assocSet st.props tid np) (s : Nat) (k' : List Nat) :
    refCount src st' s k' +
      (if src tid = s ∧ ((assocLookup st.props tid).getD ⟨none, none⟩).cacheKey = some k'
       then 1 else 0) =
    refCount src st s k' + (if src tid = s ∧ np.cacheKey = some k' then 1 else 0) := by
  cases hp : assocLookup st.props tid with
  | none =>
    rw [refCount, h, countP_assocSet_none _ _ _ _ hp, refCount]
    simp only [hp, Option.getD_none, decide_eq_true_eq]
    split_ifs <;> simp_all
  | some pold =>
    have hc := countP_assocSet_some
      (fun e => decide (src e.1 = s ∧ e.2.cacheKey = some k')) st.props tid np pold hp
    rw [refCount, h, refCount]
    simp only [hp, Option.getD_some, decide_eq_true_eq] at hc ⊢
    split_ifs at hc ⊢ <;> omega

theorem assocLookup_append_left {K V : Type} [DecidableEq K] :
    ∀ (l l2 : List (K × V)) (k : K) (v : V), assocLookup l k = some v →
      assocLookup (l ++ l2) k = some v := by
  intro l
  induction l with
  | nil => intro l2 k v h; simp [assocLookup] at h
  | cons f rest ih =>
    intro l2 k v h
    by_cases hf : f.1 = k
    · rw [assocLookup_cons, if_pos hf] at h
      rw [List.cons_append, assocLookup_cons, if_pos hf]
      exact h
    · rw [assocLookup_cons, if_neg hf] at h
      rw [List.cons_append, assocLookup_cons, if_neg hf]
      exact ih l2 k v h

theorem TexInv_update {src : Nat → Nat} {st st' : TexturesState} {tid : Nat} {key : List Nat}
    {h : Nat} {wt3 : List (List Nat × WebGLTextureRec)}
    (hinv : TexInv src st)
    (hckne : ((assocLookup st.props tid).getD ⟨none, none⟩).cacheKey ≠ some key)
    (hsrc' : st'.sources = assocSet st.sources (src tid) wt3)
    (hpr' : st'.props = assocSet st.props tid ⟨some key, some h⟩)
    (hnodup3 : (wt3.map Prod.fst).Nodup)
    (hkey3 : assocLookup wt3 key =
      some ⟨h, match assocLookup ((assocLookup st.sources (src tid)).getD []) key with
               | some r => r.usedTimes + 1
               | none => 1⟩)
    (hreuse : ∀ r, assocLookup ((assocLookup st.sources (src tid)).getD []) key = some r →
      h = r.texture)
    (hold3 : ∀ oldKey, ((assocLookup st.props tid).getD ⟨none, none⟩).cacheKey = some oldKey →
      assocLookup wt3 oldKey =
        match assocLookup ((assocLookup st.sources (src tid)).getD []) oldKey with
        | none => none
        | some oldRec =>
            if oldRec.usedTimes - 1 = 0 then none
            else some ⟨oldRec.texture, oldRec.usedTimes - 1⟩)
    (hother3 : ∀ k', k' ≠ key →
      ((assocLookup st.props tid).getD ⟨none, none⟩).cacheKey ≠ some k' →
      assocLookup wt3 k' = assocLookup ((assocLookup st.sources (src tid)).getD []) k') :
    TexInv src st' := by
  simp only [TexInv] at hinv
  obtain ⟨hn1, hn2, hn3, hcnt, hlive⟩ := hinv
  have hwt_of : ∀ (k' : List Nat) (r : WebGLTextureRec),
      assocLookup ((assocLookup st.sources (src tid)).getD []) k' = some r →
      assocLookup st.sources (src tid) =
        some ((assocLookup st.sources (src tid)).getD []) := by
    intro k' r hr
    cases hs : assocLookup st.sources (src tid) with
    | none => rw [hs] at hr; simp [assocLookup] at hr
    | some w => rfl
  have hrec : ∀ (k' : List Nat) (r : WebGLTextureRec),
      assocLookup ((assocLookup st.sources (src tid)).getD []) k' = some r →
      1 ≤ r.usedTimes ∧ r.usedTimes = refCount src st (src tid) k' := by
    intro k' r hr
    have hsome := hwt_of k' r hr
    have hmem1 : (src tid, (assocLookup st.sources (src tid)).getD []) ∈ st.sources :=
      assocLookup_mem _ _ _ hsome
    have hmem2 : (k', r) ∈ (assocLookup st.sources (src tid)).getD [] :=
      assocLookup_mem _ _ _ hr
    exact hcnt _ hmem1 _ hmem2
  have hzero : ∀ k' : List Nat,
      assocLookup ((assocLookup st.sources (src tid)).getD []) k' = none →
      refCount src st (src tid) k' = 0 := by
    intro k' hnone
    by_contra hpos
    have hlt : 0 < refCount src st (src tid) k' := Nat.pos_of_ne_zero hpos
    rw [refCount] at hlt
    obtain ⟨pe, hpe, hp⟩ := List.countP_pos.1 hlt
    simp only [decide_eq_true_eq] at hp
    obtain ⟨wtx, hwtx, rec, hrec2, _⟩ := hlive pe hpe k' hp.2
    rw [hp.1] at hwtx
    rw [hwtx] at hnone
    simp only [Option.getD_some] at hnone
    rw [hnone] at hrec2
    exact absurd hrec2 (by simp)
  have hprmem : ∀ k' : List Nat,
      ((assocLookup st.props tid).getD ⟨none, none⟩).cacheKey = some k' →
      assocLookup st.props tid = some ((assocLookup st.props tid).getD ⟨none, none⟩) := by
    intro k' hck0
    cases hp : assocLookup st.props tid with
    | none => rw [hp] at hck0; simp at hck0
    | some p => rfl
  have hrc := fun (s : Nat) (k' : List Nat) =>
    refCount_set_props src hpr' s k'
  simp only [TexInv]
  refine ⟨?_, ?_, ?_, ?_, ?_⟩
  · rw [hsrc']; exact nodup_map_fst_assocSet _ _ _ hn1
  · rw [hpr']; exact nodup_map_fst_assocSet _ _ _ hn2
  · intro e he
    rw [hsrc'] at he
    rcases mem_assocSet _ _ _ _ he with rfl | hm
    · exact hnodup3
    · exact hn3 e hm
  · intro e he en hen
    rw [hsrc'] at he
    rcases mem_assocSet_ne _ _ _ _ hn1 he with rfl | ⟨hm, hne⟩
    · dsimp only at hen ⊢
      have hlk : assocLookup wt3 en.1 = some en.2 := mem_assocLookup _ _ _ hnodup3 hen
      by_cases hk : en.1 = key
      · rw [hk, hkey3] at hlk
        have hen2 : en.2 = ⟨h, match assocLookup ((assocLookup st.sources (src tid)).getD []) key with
               | some r => r.usedTimes + 1
               | none => 1⟩ := (Option.some.inj hlk).symm
        have hrck := hrc (src tid) key
        rw [if_neg (fun hand => hckne hand.2), if_pos ⟨rfl, rfl⟩] at hrck
        rw [hk]
        cases hu : assocLookup ((assocLookup st.sources (src tid)).getD []) key with
        | none =>
          have hc0 := hzero key hu
          simp only [hu] at hen2
          rw [hen2]
          dsimp only
          omega
        | some r =>
          obtain ⟨hge, hcount⟩ := hrec key r hu
          simp only [hu] at hen2
          rw [hen2]
          dsimp only
          omega
      · by_cases hoc : ((assocLookup st.props tid).getD ⟨none, none⟩).cacheKey = some en.1
        · have h3 := hold3 en.1 hoc
          cases hu : assocLookup ((assocLookup st.sources (src tid)).getD []) en.1 with
          | none =>
            simp only [hu] at h3
            rw [h3] at hlk
            exact absurd hlk (by simp)
          | some oldRec =>
            simp only [hu] at h3
            by_cases hdel : oldRec.usedTimes - 1 = 0
            · rw [if_pos hdel] at h3
              rw [h3] at hlk
              exact absurd hlk (by simp)
            · rw [if_neg hdel] at h3
              rw [h3] at hlk
              have hen2 : en.2 = ⟨oldRec.texture, oldRec.usedTimes - 1⟩ :=
                (Option.some.inj hlk).symm
              obtain ⟨hge, hcount⟩ := hrec en.1 oldRec hu
              have hrck := hrc (src tid) en.1
              rw [if_pos ⟨rfl, hoc⟩,
                  if_neg (fun hand => hk (Option.some.inj hand.2).symm)] at hrck
              rw [hen2]
              dsimp only
              omega
        · have h3 := hother3 en.1 hk hoc
          rw [h3] at hlk
          obtain ⟨hge, hcount⟩ := hrec en.1 en.2 hlk
          have hrck := hrc (src tid) en.1
          rw [if_neg (fun hand => hoc hand.2),
              if_neg (fun hand => hk (Option.some.inj hand.2).symm)] at hrck
          omega
    · obtain ⟨hge, hcount⟩ := hcnt e hm en hen
      refine ⟨hge, ?_⟩
      have hrck := hrc e.1 en.1
      rw [if_neg (fun hand => hne hand.1.symm), if_neg (fun hand => hne hand.1.symm)] at hrck
      omega
  · intro pe hpe k' hck'
    rw [hpr'] at hpe
    rcases mem_assocSet_ne _ _ _ _ hn2 hpe with rfl | ⟨hm, hne⟩
    · dsimp only at hck' ⊢
      have hkk : key = k' := Option.some.inj hck'
      refine ⟨wt3, by rw [hsrc']; exact assocLookup_assocSet_self _ _ _, ?_⟩
      subst hkk
      exact ⟨_, hkey3, rfl⟩
    · obtain ⟨wtx, hwtx, rec, hrecx, hwgl⟩ := hlive pe hm k' hck'
      by_cases hps : src pe.1 = src tid
      · rw [hps] at hwtx
        have hwteq : (assocLookup st.sources (src tid)).getD [] = wtx := by rw [hwtx]; rfl
        have hr : assocLookup ((assocLookup st.sources (src tid)).getD []) k' = some rec := by
          rw [hwteq]; exact hrecx
        rw [hps]
        refine ⟨wt3, by rw [hsrc']; exact assocLookup_assocSet_self _ _ _, ?_⟩
        by_cases hk : k' = key
        · subst hk
          have hh := hreuse rec hr
          refine ⟨_, hkey3, ?_⟩
          rw [hwgl, hh]
        · by_cases hoc : ((assocLookup st.props tid).getD ⟨none, none⟩).cacheKey = some k'
          · have h3 := hold3 k' hoc
            simp only [hr] at h3
            by_cases hdel : rec.usedTimes - 1 = 0
            · exfalso
              have hm1 := hprmem k' hoc
              have hmem1 : (tid, (assocLookup st.props tid).getD ⟨none, none⟩) ∈ st.props :=
                assocLookup_mem _ _ _ hm1
              have h2le : 2 ≤ refCount src st (src tid) k' := by
                rw [refCount]
                refine two_le_countP _ _ _ pe hmem1 hm
                  (fun heq => hne (by rw [← heq])) ?_ ?_
                · simp only [decide_eq_true_eq]
                  exact ⟨by trivial, hoc⟩
                · simp only [decide_eq_true_eq]
                  exact ⟨hps, hck'⟩
              obtain ⟨hge, hcount⟩ := hrec k' rec hr
              omega
            · rw [if_neg hdel] at h3
              exact ⟨⟨rec.texture, rec.usedTimes - 1⟩, h3, by rw [hwgl]⟩
          · have h3 := hother3 k' hk hoc
            rw [hr] at h3
            exact ⟨rec, h3, hwgl⟩
      · refine ⟨wtx, ?_, rec, hrecx, hwgl⟩
        rw [hsrc', assocLookup_assocSet_ne _ _ _ _ hps]
        exact hwtx

theorem initTexture_inv {src : Nat → Nat} {st : TexturesState} {t : Texture}
    (hinv : TexInv src st) (hsrc : t.source = src t.id) :
    TexInv src (initTexture st t).2 := by
  have hwtnd : (((assocLookup st.sources t.source).getD [] :
      List (List Nat × WebGLTextureRec)).map Prod.fst).Nodup := by
    cases hs : assocLookup st.sources t.source with
    | none => simp
    | some w =>
      simp only [Option.getD_some]
      exact hinv.2.2.1 _ (assocLookup_mem _ _ _ hs)
  by_cases h0 : ((assocLookup st.props t.id).getD ⟨none, none⟩).cacheKey =
      some (getTextureCacheKey t.params)
  · have hpm : assocLookup st.props t.id =
        some ((assocLookup st.props t.id).getD ⟨none, none⟩) := by
      cases hp : assocLookup st.props t.id with
      | none => rw [hp] at h0; simp at h0
      | some p => rfl
    obtain ⟨wtx, hwtx0, -⟩ :=
      hinv.2.2.2.2 _ (assocLookup_mem _ _ _ hpm) _ h0
    have hwtx : assocLookup st.sources (src t.id) = some wtx := hwtx0
    rw [← hsrc] at hwtx
    simp only [initTexture]
    rw [if_pos h0]
    simp only [hwtx, Option.getD_some]
    rw [assocSet_lookup_self _ _ _ hwtx]
    have hsteq : { st with sources := st.sources } = st := by cases st; rfl
    rw [hsteq]
    exact hinv
  · simp only [initTexture]
    rw [if_neg h0]
    cases hn : assocLookup ((assocLookup st.sources t.source).getD [])
        (getTextureCacheKey t.params) with
    | none =>
      simp only [hn, Option.isNone_none, eq_self_iff_true, if_true,
        assocLookup_assocSet_self, assocSet_assocSet_self, Option.getD_some, Nat.zero_add]
      cases hck : ((assocLookup st.props t.id).getD ⟨none, none⟩).cacheKey with
      | none =>
        dsimp only
        refine TexInv_update hinv h0 (by dsimp only; rw [hsrc]) (by dsimp only)
            ?_ ?_ ?_ ?_ ?_
        · rw [← hsrc]; exact nodup_map_fst_assocSet _ _ _ hwtnd
        · rw [← hsrc]; simp only [hn]; exact assocLookup_assocSet_self _ _ _
        · intro r hr; rw [← hsrc, hn] at hr; exact absurd hr (by simp)
        · intro ok hok; rw [hck] at hok; exact absurd hok (by simp)
        · intro k' hk' hck'; rw [← hsrc]
          exact assocLookup_assocSet_ne _ _ _ _ hk'
      | some oldKey =>
        have hkne : oldKey ≠ getTextureCacheKey t.params :=
          fun he => h0 (by rw [hck, he])
        dsimp only
        rw [assocLookup_assocSet_ne _ _ _ _ hkne]
        cases hold : assocLookup ((assocLookup st.sources t.source).getD []) oldKey with
        | none =>
          dsimp only
          refine TexInv_update hinv h0 (by dsimp only; rw [hsrc]) (by dsimp only)
              ?_ ?_ ?_ ?_ ?_
          · rw [← hsrc]; exact nodup_map_fst_assocSet _ _ _ hwtnd
          · rw [← hsrc]; simp only [hn]; exact assocLookup_assocSet_self _ _ _
          · intro r hr; rw [← hsrc, hn] at hr; exact absurd hr (by simp)
          · intro ok hok
            rw [hck] at hok
            obtain rfl := Option.some.inj hok
            rw [← hsrc]
            simp only [hold]
            rw [assocLookup_assocSet_ne _ _ _ _ hkne]
            exact hold
          · intro k' hk' hck'; rw [← hsrc]
            exact assocLookup_assocSet_ne _ _ _ _ hk'
        | some oldRec =>
          dsimp only
          by_cases hdel : oldRec.usedTimes - 1 = 0
          · rw [if_pos hdel]
            dsimp only
            refine TexInv_update hinv h0 (by dsimp only; rw [hsrc]) (by dsimp only)
                ?_ ?_ ?_ ?_ ?_
            · rw [← hsrc]
              exact nodup_map_fst_assocErase _ _ (nodup_map_fst_assocSet _ _ _ hwtnd)
            · rw [← hsrc]; simp only [hn]
              rw [assocLookup_assocErase_ne _ _ _ (Ne.symm hkne)]
              exact assocLookup_assocSet_self _ _ _
            · intro r hr; rw [← hsrc, hn] at hr; exact absurd hr (by simp)
            · intro ok hok
              rw [hck] at hok
              obtain rfl := Option.some.inj hok
              rw [← hsrc]
              simp only [hold]
              rw [if_pos hdel]
              exact assocLookup_assocErase_self _ _ (nodup_map_fst_assocSet _ _ _ hwtnd)
            · intro k' hk' hck'
              have hko : k' ≠ oldKey := fun he => hck' (by rw [hck, he])
              rw [← hsrc, assocLookup_assocErase_ne _ _ _ hko]
              exact assocLookup_assocSet_ne _ _ _ _ hk'
          · rw [if_neg hdel]
            dsimp only
            refine TexInv_update hinv h0 (by dsimp only; rw [hsrc]) (by dsimp only)
                ?_ ?_ ?_ ?_ ?_
            · rw [← hsrc]
              exact nodup_map_fst_assocSet _ _ _ (nodup_map_fst_assocSet _ _ _ hwtnd)
            · rw [← hsrc]; simp only [hn]
              rw [assocLookup_assocSet_ne _ _ _ _ (Ne.symm hkne)]
              exact assocLookup_assocSet_self _ _ _
            · intro r hr; rw [← hsrc, hn] at hr; exact absurd hr (by simp)
            · intro ok hok
              rw [hck] at hok
              obtain rfl := Option.some.inj hok
              rw [← hsrc]
              simp only [hold]
              rw [if_neg hdel]
              exact assocLookup_assocSet_self _ _ _
            · intro k' hk' hck'
              have hko : k' ≠ oldKey := fun he => hck' (by rw [hck, he])
              rw [← hsrc, assocLookup_assocSet_ne _ _ _ _ hko]
              exact assocLookup_assocSet_ne _ _ _ _ hk'
    | some r =>
      simp only [hn, Option.isNone_some, Bool.false_eq_true, if_false,
        assocLookup_assocSet_self, Option.getD_some]
      cases hck : ((assocLookup st.props t.id).getD ⟨none, none⟩).cacheKey with
      | none =>
        dsimp only
        refine TexInv_update hinv h0 (by dsimp only; rw [hsrc]) (by dsimp only)
            ?_ ?_ ?_ ?_ ?_
        · rw [← hsrc]; exact nodup_map_fst_assocSet _ _ _ hwtnd
        · rw [← hsrc]; simp only [hn]; exact assocLookup_assocSet_self _ _ _
        · intro r' hr'
          rw [← hsrc, hn] at hr'
          obtain rfl := Option.some.inj hr'
          rfl
        · intro ok hok; rw [hck] at hok; exact absurd hok (by simp)
        · intro k' hk' hck'; rw [← hsrc]
          exact assocLookup_assocSet_ne _ _ _ _ hk'
      | some oldKey =>
        have hkne : oldKey ≠ getTextureCacheKey t.params :=
          fun he => h0 (by rw [hck, he])
        dsimp only
        rw [assocLookup_assocSet_ne _ _ _ _ hkne]
        cases hold : assocLookup ((assocLookup st.sources t.source).getD []) oldKey with
        | none =>
          dsimp only
          refine TexInv_update hinv h0 (by dsimp only; rw [hsrc]) (by dsimp only)
              ?_ ?_ ?_ ?_ ?_
          · rw [← hsrc]; exact nodup_map_fst_assocSet _ _ _ hwtnd
          · rw [← hsrc]; simp only [hn]; exact assocLookup_assocSet_self _ _ _
          · intro r' hr'
            rw [← hsrc, hn] at hr'
            obtain rfl := Option.some.inj hr'
            rfl
          · intro ok hok
            rw [hck] at hok
            obtain rfl := Option.some.inj hok
            rw [← hsrc]
            simp only [hold]
            rw [assocLookup_assocSet_ne _ _ _ _ hkne]
            exact hold
          · intro k' hk' hck'; rw [← hsrc]
            exact assocLookup_assocSet_ne _ _ _ _ hk'
        | some oldRec =>
          dsimp only
          by_cases hdel : oldRec.usedTimes - 1 = 0
          · rw [if_pos hdel]
            dsimp only
            refine TexInv_update hinv h0 (by dsimp only; rw [hsrc]) (by dsimp only)
                ?_ ?_ ?_ ?_ ?_
            · rw [← hsrc]
              exact nodup_map_fst_assocErase _ _ (nodup_map_fst_assocSet _ _ _ hwtnd)
            · rw [← hsrc]; simp only [hn]
              rw [assocLookup_assocErase_ne _ _ _ (Ne.symm hkne)]
              exact assocLookup_assocSet_self _ _ _
            · intro r' hr'
              rw [← hsrc, hn] at hr'
              obtain rfl := Option.some.inj hr'
              rfl
            · intro ok hok
              rw [hck] at hok
              obtain rfl := Option.some.inj hok
              rw [← hsrc]
              simp only [hold]
              rw [if_pos hdel]
              exact assocLookup_assocErase_self _ _ (nodup_map_fst_assocSet _ _ _ hwtnd)
            · intro k' hk' hck'
              have hko : k' ≠ oldKey := fun he => hck' (by rw [hck, he])
              rw [← hsrc, assocLookup_assocErase_ne _ _ _ hko]
              exact assocLookup_assocSet_ne _ _ _ _ hk'
          · rw [if_neg hdel]
            dsimp only
            refine TexInv_update hinv h0 (by dsimp only; rw [hsrc]) (by dsimp only)
                ?_ ?_ ?_ ?_ ?_
            · rw [← hsrc]
              exact nodup_map_fst_assocSet _ _ _ (nodup_map_fst_assocSet _ _ _ hwtnd)
            · rw [← hsrc]; simp only [hn]
              rw [assocLookup_assocSet_ne _ _ _ _ (Ne.symm hkne)]
              exact assocLookup_assocSet_self _ _ _
            · intro r' hr'
              rw [← hsrc, hn] at hr'
              obtain rfl := Option.some.inj hr'
              rfl
            · intro ok hok
              rw [hck] at hok
              obtain rfl := Option.some.inj hok
              rw [← hsrc]
              simp only [hold]
              rw [if_neg hdel]
              exact assocLookup_assocSet_self _ _ _
            · intro k' hk' hck'
              have hko : k' ≠ oldKey := fun he => hck' (by rw [hck, he])
              rw [← hsrc, assocLookup_assocSet_ne _ _ _ _ hko]
              exact assocLookup_assocSet_ne _ _ _ _ hk'

theorem runInitTextures_inv_aux (src : Nat → Nat) :
    ∀ (ops : List (Nat × TextureParams)) (st : TexturesState), TexInv src st →
      TexInv src (ops.foldl (fun st op => (initTexture st ⟨op.1, src op.1, op.2⟩).2) st) := by
  intro ops
  induction ops with
  | nil => intro st hs; exact hs
  | cons op rest ih =>
    intro st hs
    exact ih _ (initTexture_inv hs rfl)

theorem runInitTextures_inv (src : Nat → Nat) (ops : List (Nat × TextureParams)) :
    TexInv src (runInitTextures src ops) := by
  apply runInitTextures_inv_aux
  simp [TexInv, TexturesState.init]

theorem initTexture_step {src : Nat → Nat} {st : TexturesState} {t : Texture}
    {pr : TexProps} {oldKey : List Nat}
    (hinv : TexInv src st) (hsrc : t.source = src t.id)
    (hpr : assocLookup st.props t.id = some pr)
    (hold : pr.cacheKey = some oldKey)
    (hne : oldKey ≠ getTextureCacheKey t.params) :
    ∃ wt oldRec,
      assocLookup st.sources t.source = some wt ∧
      assocLookup wt oldKey = some oldRec ∧
      1 ≤ oldRec.usedTimes ∧
      oldRec.usedTimes = refCount src st t.source oldKey ∧
      (initTexture st t).1 = (assocLookup wt (getTextureCacheKey t.params)).isNone ∧
      (∃ wt', assocLookup (initTexture st t).2.sources t.source = some wt' ∧
        assocLookup (initTexture st t).2.props t.id =
          some ⟨some (getTextureCacheKey t.params),
                some (match assocLookup wt (getTextureCacheKey t.params) with
                      | some r => r.texture
                      | none => st.nextTexture)⟩ ∧
        assocLookup wt' (getTextureCacheKey t.params) =
          some ⟨match assocLookup wt (getTextureCacheKey t.params) with
                | some r => r.texture
                | none => st.nextTexture,
                match assocLookup wt (getTextureCacheKey t.params) with
                | some r => r.usedTimes + 1
                | none => 1⟩ ∧
        (if oldRec.usedTimes = 1 then
           assocLookup wt' oldKey = none ∧
           (initTexture st t).2.deletedTextures =
             st.deletedTextures ++ [pr.webglTexture.getD 0]
         else
           assocLookup wt' oldKey = some ⟨oldRec.texture, oldRec.usedTimes - 1⟩ ∧
           (initTexture st t).2.deletedTextures = st.deletedTextures)) ∧
      ((∃ pe, pe ∈ st.props ∧ pe.1 ≠ t.id ∧ src pe.1 = src t.id ∧
          pe.2.cacheKey = some oldKey) → 2 ≤ oldRec.usedTimes) := by
  have hpr0 : (assocLookup st.props t.id).getD ⟨none, none⟩ = pr := by rw [hpr]; rfl
  have h0 : ¬ ((assocLookup st.props t.id).getD ⟨none, none⟩).cacheKey =
      some (getTextureCacheKey t.params) := by
    rw [hpr0, hold]
    exact fun he => hne (Option.some.inj he)
  obtain ⟨wt, hwt0, oldRec, hor0, hwgl⟩ :=
    hinv.2.2.2.2 _ (assocLookup_mem _ _ _ hpr) _ hold
  have hwt1 : assocLookup st.sources (src t.id) = some wt := hwt0
  have hwt : assocLookup st.sources t.source = some wt := by rw [hsrc]; exact hwt1
  have hmem1 : (t.source, wt) ∈ st.sources := assocLookup_mem _ _ _ hwt
  have hwtnd : (wt.map Prod.fst).Nodup := hinv.2.2.1 _ hmem1
  have hcnt1 := hinv.2.2.2.1 _ hmem1 _ (assocLookup_mem _ _ _ hor0)
  have hge : 1 ≤ oldRec.usedTimes := hcnt1.1
  have h2le : (∃ pe, pe ∈ st.props ∧ pe.1 ≠ t.id ∧ src pe.1 = src t.id ∧
      pe.2.cacheKey = some oldKey) → 2 ≤ oldRec.usedTimes := by
    rintro ⟨pe, hpm, hpne, hpsrc, hpck⟩
    have h2 : 2 ≤ refCount src st (src t.id) oldKey := by
      rw [refCount]
      refine two_le_countP _ _ (t.id, pr) pe (assocLookup_mem _ _ _ hpr) hpm
        (fun he => hpne (by rw [← he])) ?_ ?_
      · simp only [decide_eq_true_eq]
        exact ⟨by trivial, hold⟩
      · simp only [decide_eq_true_eq]
        exact ⟨hpsrc, hpck⟩
    have hc2 := hcnt1.2
    dsimp only at hc2
    rw [hsrc] at hc2
    omega
  cases hn : assocLookup wt (getTextureCacheKey t.params) with
  | none =>
    by_cases hdel : oldRec.usedTimes - 1 = 0
    · have hstep : initTexture st t = (true,
          ⟨assocSet st.sources t.source
              (assocErase (assocSet wt (getTextureCacheKey t.params)
                ⟨st.nextTexture, 1⟩) oldKey),
            assocSet st.props t.id
              ⟨some (getTextureCacheKey t.params), some st.nextTexture⟩,
            st.nextTexture + 1,
            st.deletedTextures ++ [pr.webglTexture.getD 0],
            st.memoryTextures + 1 - 1⟩) := by
        simp only [initTexture]
        rw [if_neg h0, hwt]
        simp only [Option.getD_some, hn, Option.isNone_none, eq_self_iff_true, if_true,
          assocLookup_assocSet_self, assocSet_assocSet_self, Nat.zero_add, hpr0, hold]
        rw [assocLookup_assocSet_ne _ _ _ _ hne]
        simp only [hor0]
        rw [if_pos hdel]
      refine ⟨wt, oldRec, hwt, hor0, hcnt1.1, hcnt1.2, by rw [hstep, hn]; rfl, ?_, h2le⟩
      refine ⟨assocErase (assocSet wt (getTextureCacheKey t.params)
        ⟨st.nextTexture, 1⟩) oldKey, ?_, ?_, ?_, ?_⟩
      · rw [hstep]
        exact assocLookup_assocSet_self _ _ _
      · rw [hstep]
        dsimp only
        rw [assocLookup_assocSet_self]
        simp only [hn]
      · simp only [hn]
        rw [assocLookup_assocErase_ne _ _ _ (Ne.symm hne)]
        exact assocLookup_assocSet_self _ _ _
      · rw [if_pos (show oldRec.usedTimes = 1 by omega)]
        exact ⟨assocLookup_assocErase_self _ _ (nodup_map_fst_assocSet _ _ _ hwtnd),
          by rw [hstep]⟩
    · have hstep : initTexture st t = (true,
          ⟨assocSet st.sources t.source
              (assocSet (assocSet wt (getTextureCacheKey t.params) ⟨st.nextTexture, 1⟩)
                oldKey ⟨oldRec.texture, oldRec.usedTimes - 1⟩),
            assocSet st.props t.id
              ⟨some (getTextureCacheKey t.params), some st.nextTexture⟩,
            st.nextTexture + 1,
            st.deletedTextures,
            st.memoryTextures + 1⟩) := by
        simp only [initTexture]
        rw [if_neg h0, hwt]
        simp only [Option.getD_some, hn, Option.isNone_none, eq_self_iff_true, if_true,
          assocLookup_assocSet_self, assocSet_assocSet_self, Nat.zero_add, hpr0, hold]
        rw [assocLookup_assocSet_ne _ _ _ _ hne]
        simp only [hor0]
        rw [if_neg hdel]
      refine ⟨wt, oldRec, hwt, hor0, hcnt1.1, hcnt1.2, by rw [hstep, hn]; rfl, ?_, h2le⟩
      refine ⟨assocSet (assocSet wt (getTextureCacheKey t.params) ⟨st.nextTexture, 1⟩)
        oldKey ⟨oldRec.texture, oldRec.usedTimes - 1⟩, ?_, ?_, ?_, ?_⟩
      · rw [hstep]
        exact assocLookup_assocSet_self _ _ _
      · rw [hstep]
        dsimp only
        rw [assocLookup_assocSet_self]
        simp only [hn]
      · simp only [hn]
        rw [assocLookup_assocSet_ne _ _ _ _ (Ne.symm hne)]
        exact assocLookup_assocSet_self _ _ _
      · rw [if_neg (show ¬ oldRec.usedTimes = 1 by omega)]
        exact ⟨assocLookup_assocSet_self _ _ _, by rw [hstep]⟩
  | some r =>
    by_cases hdel : oldRec.usedTimes - 1 = 0
    · have hstep : initTexture st t = (false,
          ⟨assocSet st.sources t.source
              (assocErase (assocSet wt (getTextureCacheKey t.params)
                ⟨r.texture, r.usedTimes + 1⟩) oldKey),
            assocSet st.props t.id
              ⟨some (getTextureCacheKey t.params), some r.texture⟩,
            st.nextTexture,
            st.deletedTextures ++ [pr.webglTexture.getD 0],
            st.memoryTextures - 1⟩) := by
        simp only [initTexture]
        rw [if_neg h0, hwt]
        simp only [Option.getD_some, hn, Option.isNone_some, Bool.false_eq_true, if_false,
          assocLookup_assocSet_self, Option.getD_some, hpr0, hold]
        rw [assocLookup_assocSet_ne _ _ _ _ hne]
        simp only [hor0]
        rw [if_pos hdel]
      refine ⟨wt, oldRec, hwt, hor0, hcnt1.1, hcnt1.2, by rw [hstep, hn]; rfl, ?_, h2le⟩
      refine ⟨assocErase (assocSet wt (getTextureCacheKey t.params)
        ⟨r.texture, r.usedTimes + 1⟩) oldKey, ?_, ?_, ?_, ?_⟩
      · rw [hstep]
        exact assocLookup_assocSet_self _ _ _
      · rw [hstep]
        dsimp only
        rw [assocLookup_assocSet_self]
        simp only [hn]
      · simp only [hn]
        rw [assocLookup_assocErase_ne _ _ _ (Ne.symm hne)]
        exact assocLookup_assocSet_self _ _ _
      · rw [if_pos (show oldRec.usedTimes = 1 by omega)]
        exact ⟨assocLookup_assocErase_self _ _ (nodup_map_fst_assocSet _ _ _ hwtnd),
          by rw [hstep]⟩
    · have hstep : initTexture st t = (false,
          ⟨assocSet st.sources t.source
              (assocSet (assocSet wt (getTextureCacheKey t.params)
                ⟨r.texture, r.usedTimes + 1⟩) oldKey
                ⟨oldRec.texture, oldRec.usedTimes - 1⟩),
            assocSet st.props t.id
              ⟨some (getTextureCacheKey t.params), some r.texture⟩,
            st.nextTexture,
            st.deletedTextures,
            st.memoryTextures⟩) := by
        simp only [initTexture]
        rw [if_neg h0, hwt]
        simp only [Option.getD_some, hn, Option.isNone_some, Bool.false_eq_true, if_false,
          assocLookup_assocSet_self, Option.getD_some, hpr0, hold]
        rw [assocLookup_assocSet_ne _ _ _ _ hne]
        simp only [hor0]
        rw [if_neg hdel]
      refine ⟨wt, oldRec, hwt, hor0, hcnt1.1, hcnt1.2, by rw [hstep, hn]; rfl, ?_, h2le⟩
      refine ⟨assocSet (assocSet wt (getTextureCacheKey t.params)
        ⟨r.texture, r.usedTimes + 1⟩) oldKey
        ⟨oldRec.texture, oldRec.usedTimes - 1⟩, ?_, ?_, ?_, ?_⟩
      · rw [hstep]
        exact assocLookup_assocSet_self _ _ _
      · rw [hstep]
        dsimp only
        rw [assocLookup_assocSet_self]
        simp only [hn]
      · simp only [hn]
        rw [assocLookup_assocSet_ne _ _ _ _ (Ne.symm hne)]
        exact assocLookup_assocSet_self _ _ _
      · rw [if_neg (show ¬ oldRec.usedTimes = 1 by omega)]
        exact ⟨assocLookup_assocSet_self _ _ _, by rw [hstep]⟩

theorem getTextureCacheKey_inj (p q : TextureParams)
    (hw : p.wrapR.isSome = q.wrapR.isSome)
    (hk : getTextureCacheKey p = getTextureCacheKey q) : p = q := by
  have hb : ∀ a b : Bool, cond a 1 0 = cond b 1 0 → a = b := by
    intro a b hab
    cases a <;> cases b <;> simp_all
  rcases p with ⟨ws, wtp, wR, mg, mn, an, inf, fo, ty, gm, pm, fy, ua, cs⟩
  rcases q with ⟨ws2, wt2, wR2, mg2, mn2, an2, inf2, fo2, ty2, gm2, pm2, fy2, ua2, cs2⟩
  simp only [getTextureCacheKey, List.cons.injEq, and_true] at hk
  obtain ⟨e1, e2, e3, e4, e5, e6, e7, e8, e9, e10, e11, e12, e13, e14⟩ := hk
  dsimp only at hw
  have hwr : wR = wR2 := by
    cases wR <;> cases wR2 <;> simp_all
  subst hwr
  subst e1; subst e2; subst e4; subst e5; subst e6; subst e7; subst e8; subst e9
  subst e13; subst e14
  obtain rfl := hb _ _ e10
  obtain rfl := hb _ _ e11
  obtain rfl := hb _ _ e12
  rfl

/-- C6: texture-cache reference counting.  (1) Over every `initTexture`
run the cache invariant holds: every live handle record's `usedTimes` is
positive and equals the number of logical textures of that source whose
properties point at its cache key, and every texture's properties point at
a live record whose GL handle they mirror.  (2) Distinct sampling/format
parameters produce distinct cache keys (`wrapR` compared where defined in
both).  (3) When a texture's cache key changed, `initTexture` provisions a
fresh handle under the new key (forcing an upload) or reuses an existing
one incrementing its `usedTimes`; it decrements the old key's record
without touching its GL handle, and deletes the old handle exactly when
the decremented count reaches zero — never while another logical texture
of the same source still references the old key, since then
`usedTimes ≥ 2`. -/
theorem C6_texture_refcount :
    (∀ (src : Nat → Nat) (ops : List (Nat × TextureParams)),
      TexInv src (runInitTextures src ops)) ∧
    (∀ p q : TextureParams, p.wrapR.isSome = q.wrapR.isSome →
      getTextureCacheKey p = getTextureCacheKey q → p = q) ∧
    (∀ (src : Nat → Nat) (st : TexturesState) (t : Texture) (pr : TexProps)
        (oldKey : List Nat), TexInv src st → t.source = src t.id →
      assocLookup st.props t.id = some pr → pr.cacheKey = some oldKey →
      oldKey ≠ getTextureCacheKey t.params →
      ∃ wt oldRec,
        assocLookup st.sources t.source = some wt ∧
        assocLookup wt oldKey = some oldRec ∧
        1 ≤ oldRec.usedTimes ∧
        oldRec.usedTimes = refCount src st t.source oldKey ∧
        (initTexture st t).1 = (assocLookup wt (getTextureCacheKey t.params)).isNone ∧
        (∃ wt', assocLookup (initTexture st t).2.sources t.source = some wt' ∧
          assocLookup (initTexture st t).2.props t.id =
            some ⟨some (getTextureCacheKey t.params),
                  some (match assocLookup wt (getTextureCacheKey t.params) with
                        | some r => r.texture
                        | none => st.nextTexture)⟩ ∧
          assocLookup wt' (getTextureCacheKey t.params) =
            some ⟨match assocLookup wt (getTextureCacheKey t.params) with
                  | some r => r.texture
                  | none => st.nextTexture,
                  match assocLookup wt (getTextureCacheKey t.params) with
                  | some r => r.usedTimes + 1
                  | none => 1⟩ ∧
          (if oldRec.usedTimes = 1 then
             assocLookup wt' oldKey = none ∧
             (initTexture st t).2.deletedTextures =
               st.deletedTextures ++ [pr.webglTexture.getD 0]
           else
             assocLookup wt' oldKey = some ⟨oldRec.texture, oldRec.usedTimes - 1⟩ ∧
             (initTexture st t).2.deletedTextures = st.deletedTextures)) ∧
        ((∃ pe, pe ∈ st.props ∧ pe.1 ≠ t.id ∧ src pe.1 = src t.id ∧
            pe.2.cacheKey = some oldKey) → 2 ≤ oldRec.usedTimes)) :=
  ⟨runInitTextures_inv, getTextureCacheKey_inj,
   fun _ _ _ _ _ hinv hsrc hpr hold hne => initTexture_step hinv hsrc hpr hold hne⟩

/-- Witness for C6: two textures of one source share a handle record with
`usedTimes = 2`; changing texture 1's magnification filter provisions a
fresh handle under the new key, decrements the shared record to 1, and
deletes nothing because texture 2 still references the old key. -/
theorem C6_texture_refcount_witness :
    TexInv texSrc0 texDemoState ∧
    (initTexture texDemoState ⟨1, 0, texParamsB⟩).2.deletedTextures = [] ∧
    ∃ wt', assocLookup (initTexture texDemoState ⟨1, 0, texParamsB⟩).2.sources 0 = some wt' ∧
      assocLookup wt' (getTextureCacheKey texParamsA) = some ⟨0, 1⟩ ∧
      assocLookup wt' (getTextureCacheKey texParamsB) = some ⟨1, 1⟩ := by
  have hmain := C6_texture_refcount
  have hinv : TexInv texSrc0 texDemoState :=
    hmain.1 texSrc0 [(1, texParamsA), (2, texParamsA)]
  obtain ⟨wt, oldRec, hwt, hor, hge1, hcnt, hforce, ⟨wt', hs', hp', hk', hif⟩, href⟩ :=
    hmain.2.2 texSrc0 texDemoState ⟨1, 0, texParamsB⟩
      ⟨some (getTextureCacheKey texParamsA), some 0⟩
      (getTextureCacheKey texParamsA) hinv rfl (by decide) rfl (by decide)
  have hwte : assocLookup texDemoState.sources (Texture.mk 1 0 texParamsB).source =
      some [(getTextureCacheKey texParamsA, (⟨0, 2⟩ : WebGLTextureRec))] := by decide
  rw [hwte] at hwt
  obtain rfl := Option.some.inj hwt
  have hore : assocLookup [(getTextureCacheKey texParamsA, (⟨0, 2⟩ : WebGLTextureRec))]
      (getTextureCacheKey texParamsA) = some ⟨0, 2⟩ := by decide
  rw [hore] at hor
  obtain rfl := Option.some.inj hor
  rw [if_neg (by decide)] at hif
  have hn2 : assocLookup [(getTextureCacheKey texParamsA, (⟨0, 2⟩ : WebGLTextureRec))]
      (getTextureCacheKey (Texture.mk 1 0 texParamsB).params) = none := by decide
  rw [hn2] at hk'
  refine ⟨hinv, ?_, wt', hs', ?_, ?_⟩
  · rw [hif.2]; decide
  · exact hif.1
  · exact hk'

end Three
